import Mathlib

/-!
Verification of the go-compose-sql statement composition/rendering engine and
its type-conversion registry, as a shallow embedding in Lean.

The embedding mirrors the Go source:
* `SqlCompose` models the v1 engine: the clause/statement data model
  (`SqlClause`, `SQLStatement`), the dialect drivers (`Driver`, `writeClause`,
  `replacePlaceholders`), and the composer (`renderClauses`,
  `renderJoinClause`, `SQLStatement.Write`, `SQLStatement.argsList`).
* `V2Query` models the v2 `InsertBuilder.ToSQL` path with its dialect
  `SupportsReturning` gate.
* `TypeConv` models the `typeconv.Registry` (`Convert`, `NewRegistry`) and the
  dialects' lazily initialised `TypeRegistry` accessor.

Go strings are modelled as Lean `String` (a list of characters); the byte
offsets Go's `strings.Index` produces coincide with character offsets for the
ASCII text this engine manipulates.
-/

set_option maxHeartbeats 1000000

namespace SqlCompose

/-- Bound argument values (`[]any` in Go). The renderer never inspects bound
values — only their count and order matter — so they are modelled as
integers. -/
abbrev SqlArg := Int

/-- The clause kinds of the v1 engine (`ClauseType` constants). -/
inductive ClauseType where
  | insert
  | select
  | update
  | delete
  | whereClause
  | orderBy
  | limit
  | offset
  | coalesce
  | desc
  | asc
  | returning
  | values
  | join
deriving DecidableEq, Repr

/-- The Go string constant backing each clause kind (`ClauseType` is a string
type in Go; error construction uses `string(c.Type)`). -/
def ClauseType.name : ClauseType → String
  | .insert => "INSERT"
  | .select => "SELECT"
  | .update => "UPDATE"
  | .delete => "DELETE"
  | .whereClause => "WHERE"
  | .orderBy => "ORDER BY"
  | .limit => "LIMIT"
  | .offset => "OFFSET"
  | .coalesce => "COALESCE"
  | .desc => "DESC"
  | .asc => "ASC"
  | .returning => "RETURNING"
  | .values => "VALUES"
  | .join => "JOIN"

/-- The v1 dialect drivers: `SQLiteDriver{}` (question-mark placeholders,
trailing semicolon) and `PostgresDriver{}` (dollar placeholders, no
semicolon). -/
inductive Driver where
  | sqlite
  | postgres
deriving DecidableEq, Repr

/-- The `DefaultDriver` is `SQLiteDriver{}`. -/
def DefaultDriver : Driver := .sqlite

/-- The two `placeholderRenderer` implementations: `questionPlaceholder` and
`dollarPlaceholder`. -/
inductive Renderer where
  | question
  | dollar
deriving DecidableEq, Repr

/-- The `Placeholder(idx)`: `questionPlaceholder` always renders `?`,
`dollarPlaceholder` renders `$` followed by the decimal position. -/
def Renderer.placeholder : Renderer → Int → String
  | .question, _ => "?"
  | .dollar, i => "$" ++ toString i

/-- Modelled from the spec: the helper `rendererForDriver` is called by
`SQLStatement.Write` and `renderJoinClause` but its definition is not part of
the sources; per §4.4 each driver's splice placeholders use that dialect's own
placeholder syntax, so the `$N` dialect maps to the dollar renderer and the
`?` dialect to the question renderer. -/
def rendererForDriver : Driver → Renderer
  | .sqlite => .question
  | .postgres => .dollar

/-- The `needsSemicolon`: every driver except `PostgresDriver` requests a trailing
semicolon. -/
def needsSemicolon : Driver → Bool
  | .postgres => false
  | .sqlite => true

/-- The render-time error taxonomy of the v1 engine (`errors.go` plus the two
`fmt.Errorf` cases inside `renderClauses`). -/
inductive RenderError where
  | invalidClause (clause : String)
  | misplacedClause (clause : String)
  | invalidCoalesceArgs (count : Nat)
  | malformedInsert
  | malformedSelect
deriving DecidableEq, Repr

/-- The `strings.Join(parts, sep)`. -/
def strJoin (sep : String) : List String → String
  | [] => ""
  | [s] => s
  | s :: rest => s ++ sep ++ strJoin sep rest

/-- Character-level prefix of a string (`s[:n]` in Go, byte offsets coinciding
with character offsets on the ASCII text involved). -/
def strTake (s : String) (n : Nat) : String :=
  ⟨s.data.take n⟩

/-- Character-level suffix of a string (`s[n:]` in Go). -/
def strDrop (s : String) (n : Nat) : String :=
  ⟨s.data.drop n⟩

/-- Helper for `strIndex`: first index at which `needle` occurs in `hay`. -/
def strIndexAux (needle : List Char) : List Char → Nat → Option Nat
  | hay, i =>
    if needle.isPrefixOf hay then some i
    else
      match hay with
      | [] => none
      | _ :: t => strIndexAux needle t (i + 1)

/-- The `strings.Index(s, sub)`: index of the first occurrence of `sub` in `s`,
`none` standing for Go's `-1`. -/
def strIndex (s sub : String) : Option Nat :=
  strIndexAux sub.data s.data 0

/-- Number of `?` characters in a string: placeholder markers in expression
templates, and placeholder tokens of the question-mark dialect. -/
def countQMarks (s : String) : Nat :=
  s.data.count '?'

/-- Helper for `replacePlaceholders`: walks the expression characters with the
running local marker count. -/
def replacePlaceholdersAux (r : Renderer) (argPosition : Int) :
    List Char → Int → String × Int
  | [], count => ("", count)
  | ch :: rest, count =>
    if ch = '?' then
      let (s, n) := replacePlaceholdersAux r argPosition rest (count + 1)
      (r.placeholder (argPosition + count) ++ s, n)
    else
      let (s, n) := replacePlaceholdersAux r argPosition rest count
      (String.singleton ch ++ s, n)

/-- The `replacePlaceholders(expr, argPosition, placeholders)`: substitutes each
`?` marker of `expr` with `placeholders.Placeholder(argPosition+k)` for the
running count `k` and returns the count consumed (Go returns the original
string when the count is zero; the built string is identical in that case). -/
def replacePlaceholders (expr : String) (argPosition : Int) (r : Renderer) :
    String × Int :=
  let (s, count) := replacePlaceholdersAux r argPosition expr.data 0
  if count = 0 then (expr, 0) else (s, count)

/- The clause/statement data model.  A `SqlClause` carries its kind, table
name, column names, expression template, bound arguments, JOIN alias
(`Identifier`) and nested JOIN statement (`JoinStatement`, a plain value whose
zero value has an empty clause list).  The reflection-only `ModelType` field
is omitted: it never influences rendering or `Args`.  A dedicated `Clauses`
list type makes the mutual recursion between statements and clauses
structural. -/
mutual
inductive SQLStatement where
  | mk (clauses : Clauses) (driver : Option Driver)
inductive Clauses where
  | nil
  | cons (head : SqlClause) (tail : Clauses)
inductive SqlClause where
  | mk (ctype : ClauseType) (tableName : String) (columnNames : List String)
      (expr : String) (args : List SqlArg) (identifier : String)
      (joinStatement : SQLStatement)
end

def SQLStatement.clauses : SQLStatement → Clauses
  | .mk cls _ => cls

def SQLStatement.driver : SQLStatement → Option Driver
  | .mk _ d => d

def SqlClause.ctype : SqlClause → ClauseType
  | .mk t _ _ _ _ _ _ => t

def SqlClause.tableName : SqlClause → String
  | .mk _ t _ _ _ _ _ => t

def SqlClause.columnNames : SqlClause → List String
  | .mk _ _ cols _ _ _ _ => cols

def SqlClause.expr : SqlClause → String
  | .mk _ _ _ e _ _ _ => e

def SqlClause.args : SqlClause → List SqlArg
  | .mk _ _ _ _ a _ _ => a

def SqlClause.identifier : SqlClause → String
  | .mk _ _ _ _ _ i _ => i

def SqlClause.joinStatement : SqlClause → SQLStatement
  | .mk _ _ _ _ _ _ j => j

/-- The zero-value statement `SQLStatement{}`. -/
def emptyStmt : SQLStatement := .mk .nil none

/-- A clause with every field other than the kind at its zero value. -/
def mkClause (t : ClauseType) : SqlClause := .mk t "" [] "" [] "" emptyStmt

/-- The `writeClause(clause, argPosition, placeholders)` from `driver.go`: renders
one clause to a fragment plus the number of placeholders consumed.  The
`VALUES`/`JOIN` kinds have no case in the Go switch and fall to the
`InvalidClause` default (the composer intercepts them earlier). -/
def writeClause (clause : SqlClause) (argPosition : Int) (placeholders : Renderer) :
    Except RenderError (String × Int) :=
  match clause.ctype with
  | .insert =>
    let cols := strJoin ", " clause.columnNames
    let phs := (List.range clause.columnNames.length).map
      (fun (i : Nat) => placeholders.placeholder (argPosition + (i : Int)))
    .ok ("INSERT INTO " ++ clause.tableName ++ " (" ++ cols ++ ") VALUES (" ++
          strJoin ", " phs ++ ")", (phs.length : Int))
  | .select =>
    .ok ("SELECT " ++ strJoin ", " clause.columnNames ++ " FROM " ++
          clause.tableName, 0)
  | .update =>
    let assignments := ((List.range clause.columnNames.length).zip clause.columnNames).map
      (fun p => p.2 ++ "=" ++ placeholders.placeholder (argPosition + (p.1 : Int)))
    .ok ("UPDATE " ++ clause.tableName ++ " SET " ++ strJoin ", " assignments,
          (assignments.length : Int))
  | .delete => .ok ("DELETE FROM " ++ clause.tableName, 0)
  | .whereClause =>
    let p := replacePlaceholders clause.expr argPosition placeholders
    .ok ("WHERE " ++ p.1, p.2)
  | .orderBy => .ok ("ORDER BY " ++ strJoin ", " clause.columnNames, 0)
  | .limit => .ok ("LIMIT " ++ placeholders.placeholder argPosition, 1)
  | .offset => .ok ("OFFSET " ++ placeholders.placeholder argPosition, 1)
  | .coalesce =>
    if clause.columnNames.length < 2 then
      .error (.invalidCoalesceArgs clause.columnNames.length)
    else
      .ok ("COALESCE(" ++ strJoin ", " clause.columnNames ++ ")", 0)
  | .desc => .ok ("DESC", 0)
  | .asc => .ok ("ASC", 0)
  | .returning =>
    let cols := if clause.columnNames.isEmpty then "*"
                else strJoin ", " clause.columnNames
    .ok ("RETURNING " ++ cols, 0)
  | .values => .error (.invalidClause (ClauseType.name .values))
  | .join => .error (.invalidClause (ClauseType.name .join))

/-- The `Driver.Write(clause, argPosition)`: each driver delegates to
`writeClause` with its own placeholder renderer. -/
def Driver.write (d : Driver) (clause : SqlClause) (argPosition : Int) :
    Except RenderError (String × Int) :=
  match d with
  | .sqlite => writeClause clause argPosition .question
  | .postgres => writeClause clause argPosition .dollar

/-- Modelled from the spec: the helper `hasReturningClause` is called by
`renderJoinClause` but its definition is not part of the sources; it reports
whether the statement's clause list carries a RETURNING clause ("a DML clause
carrying a RETURNING clause"). -/
def Clauses.hasReturning : Clauses → Bool
  | .nil => false
  | .cons c rest => if c.ctype = .returning then true else rest.hasReturning

/-- The `parts[len(parts)-1] = s` (Go panics on an empty slice; every reachable
caller has just appended a fragment, so the empty case never occurs). -/
def updateLast (parts : List String) (s : String) : List String :=
  parts.dropLast ++ [s]

/-- Kind of the first clause of a list (`stmt.Clauses[0].Type`); the `.nil`
default is arbitrary, the value is only consulted for non-empty lists. -/
def leadingOf : Clauses → ClauseType
  | .nil => .select
  | .cons c _ => c.ctype

/-- Kind of the immediately preceding clause, `none` when at index 0. -/
def prevType (prev : Option SqlClause) : Option ClauseType :=
  prev.map SqlClause.ctype

mutual

/-- The `renderClauses(stmt, driver, renderer, argPosition)`: walks the clause
sequence threading the running placeholder position, joining the fragments
with single spaces.  The per-iteration work lives in `renderLoop`, which
carries the loop state (`leading` = `stmt.Clauses[0].Type`, `prev` =
`stmt.Clauses[i-1]` or `none` at index 0, the accumulated `parts`, and the
`argPosition`/`usedTotal` counters). -/
def renderClauses : SQLStatement → Driver → Renderer → Int →
    Except RenderError (String × Int)
  | .mk cls _, driver, renderer, argPosition =>
    match renderLoop driver renderer (leadingOf cls) none [] argPosition 0 cls with
    | .error e => .error e
    | .ok (parts, usedTotal) => .ok (strJoin " " parts, usedTotal)

/-- One pass of the `renderClauses` loop body per clause, in source order:
DESC/ASC adjacency check, RETURNING leading-kind check, the VALUES splice
(`INSERT` predecessor) or pass-through (`UPDATE` predecessor), the JOIN
branch, and the generic `driver.Write` branch with the COALESCE splice. -/
def renderLoop (driver : Driver) (renderer : Renderer) (leading : ClauseType)
    (prev : Option SqlClause) (parts : List String) (argPosition usedTotal : Int) :
    Clauses → Except RenderError (List String × Int)
  | .nil => .ok (parts, usedTotal)
  | .cons c rest =>
    if (c.ctype = .desc ∨ c.ctype = .asc) ∧ prevType prev ≠ some .orderBy then
      .error (.misplacedClause c.ctype.name)
    else if c.ctype = .returning ∧
        ¬(leading = .insert ∨ leading = .update ∨ leading = .delete) then
      .error (.misplacedClause c.ctype.name)
    else if c.ctype = .values then
      match prev with
      | none => .error (.misplacedClause (ClauseType.name .values))
      | some pc =>
        if pc.ctype = .insert then
          match parts.getLast? with
          | none => .error .malformedInsert
          | some insertClauseStr =>
            match strIndex insertClauseStr " VALUES " with
            | none => .error .malformedInsert
            | some idx =>
              let insertColumns : Int := pc.columnNames.length
              let valuesStartPos := argPosition - insertColumns
              let phs := (List.range c.args.length).map
                (fun (j : Nat) => renderer.placeholder (valuesStartPos + (j : Int)))
              let newLast := strTake insertClauseStr idx ++ " VALUES (" ++
                strJoin ", " phs ++ ")"
              renderLoop driver renderer leading (some c) (updateLast parts newLast)
                (argPosition - insertColumns + (c.args.length : Int))
                (usedTotal - insertColumns + (c.args.length : Int)) rest
        else if pc.ctype = .update then
          renderLoop driver renderer leading (some c) parts argPosition usedTotal rest
        else
          .error (.misplacedClause (ClauseType.name .values))
    else if c.ctype = .join then
      match renderJoinClause leading prev c driver renderer argPosition with
      | .error e => .error e
      | .ok (joinSQL, used) =>
        renderLoop driver renderer leading (some c) (parts ++ [joinSQL])
          (argPosition + used) (usedTotal + used) rest
    else
      match driver.write c argPosition with
      | .error e => .error e
      | .ok (p, used) =>
        if c.ctype = .coalesce then
          if prevType prev ≠ some .select then
            .error (.misplacedClause (ClauseType.name .coalesce))
          else
            match parts.getLast? with
            | none => .error .malformedSelect
            | some sel =>
              match strIndex sel " FROM " with
              | none => .error .malformedSelect
              | some idx =>
                renderLoop driver renderer leading (some c)
                  (updateLast parts (strTake sel idx ++ ", " ++ p ++ strDrop sel idx))
                  (argPosition + used) (usedTotal + used) rest
        else
          renderLoop driver renderer leading (some c) (parts ++ [p])
            (argPosition + used) (usedTotal + used) rest

/-- The `renderJoinClause(stmt, clause, driver, renderer, argPosition, index)`:
validates the JOIN position (leading clause SELECT, not first, predecessor not
WHERE/ORDER BY/LIMIT/OFFSET/RETURNING, nested statement non-empty with a
SELECT or RETURNING-carrying DML leading clause), renders the nested statement
at the current position with its own driver's renderer, renders the ON
expression at `argPosition + usedInner`, and assembles the fragment.  The
outer statement is represented by `leading` (= `stmt.Clauses[0].Type`) and
`prev` (= `stmt.Clauses[index-1]`, `none` iff `index == 0`). -/
def renderJoinClause (leading : ClauseType) (prev : Option SqlClause) :
    SqlClause → Driver → Renderer → Int → Except RenderError (String × Int)
  | .mk _ _ _ onExpr _ identifier joinStatement, driver, renderer, argPosition =>
    if leading ≠ .select then .error (.misplacedClause (ClauseType.name .join))
    else
      match prev with
      | none => .error (.misplacedClause (ClauseType.name .join))
      | some pc =>
        if pc.ctype = .whereClause ∨ pc.ctype = .orderBy ∨ pc.ctype = .limit ∨
            pc.ctype = .offset ∨ pc.ctype = .returning then
          .error (.misplacedClause (ClauseType.name .join))
        else
          match joinStatement.clauses with
          | .nil => .error (.misplacedClause (ClauseType.name .join))
          | .cons nc _ =>
            let nestedDriver := joinStatement.driver.getD driver
            let nestedRenderer := rendererForDriver nestedDriver
            let leadOK : Bool :=
              match nc.ctype with
              | .select => true
              | .insert => joinStatement.clauses.hasReturning
              | .update => joinStatement.clauses.hasReturning
              | .delete => joinStatement.clauses.hasReturning
              | _ => false
            if leadOK = false then .error (.misplacedClause (ClauseType.name .join))
            else
              match renderClauses joinStatement nestedDriver nestedRenderer argPosition with
              | .error e => .error e
              | .ok (innerSQL, usedInner) =>
                let onP := replacePlaceholders onExpr (argPosition + usedInner) renderer
                .ok ("JOIN (" ++ innerSQL ++ ") " ++ identifier ++ " ON " ++ onP.1,
                      usedInner + onP.2)

end

/-- The `SQLStatement.Write()`: resolves the driver (`DefaultDriver` when unset),
renders the clauses starting at position 1, and appends the trailing
terminator when the driver requests one — except on empty output. -/
def SQLStatement.Write (s : SQLStatement) : Except RenderError String :=
  let driver := s.driver.getD DefaultDriver
  let renderer := rendererForDriver driver
  match renderClauses s driver renderer 1 with
  | .error e => .error e
  | .ok (sql, _) =>
    if sql = "" then .ok ""
    else if needsSemicolon driver then .ok (sql ++ ";")
    else .ok sql

mutual

/-- The `SQLStatement.Args()`: the clause-ordered concatenation of bound
arguments. -/
def SQLStatement.argsList : SQLStatement → List SqlArg
  | .mk cls _ => Clauses.argsList cls

def Clauses.argsList : Clauses → List SqlArg
  | .nil => []
  | .cons c rest => SqlClause.argsOf c ++ Clauses.argsList rest

/-- The contribution of one clause to `Args()`: a JOIN clause contributes its
nested statement's arguments before its own ON arguments. -/
def SqlClause.argsOf : SqlClause → List SqlArg
  | .mk t _ _ _ args _ joinStatement =>
    (if t = .join then SQLStatement.argsList joinStatement else []) ++ args

end

/-- The `Clauses.push`: append one clause at the end (Go `append`). -/
def Clauses.push : Clauses → SqlClause → Clauses
  | .nil, c => .cons c .nil
  | .cons h t, c => .cons h (t.push c)

def SQLStatement.appendClause : SQLStatement → SqlClause → SQLStatement
  | .mk cls d, c => .mk (cls.push c) d

/-- The `Where(expr, args...)`. -/
def SQLStatement.whereAppend (s : SQLStatement) (expr : String)
    (args : List SqlArg) : SQLStatement :=
  s.appendClause (.mk .whereClause "" [] expr args "" emptyStmt)

/-- The `OrderBy(columns...)`. -/
def SQLStatement.orderByAppend (s : SQLStatement) (columns : List String) :
    SQLStatement :=
  s.appendClause (.mk .orderBy "" columns "" [] "" emptyStmt)

/-- The `Limit(n)`. -/
def SQLStatement.limitAppend (s : SQLStatement) (n : SqlArg) : SQLStatement :=
  s.appendClause (.mk .limit "" [] "" [n] "" emptyStmt)

/-- The `Offset(n)`. -/
def SQLStatement.offsetAppend (s : SQLStatement) (n : SqlArg) : SQLStatement :=
  s.appendClause (.mk .offset "" [] "" [n] "" emptyStmt)

/-- The `Coalesce(values...)`: the arguments, already formatted by
`formatCoalesceValue`, land in the clause's column names. -/
def SQLStatement.coalesceAppend (s : SQLStatement) (formatted : List String) :
    SQLStatement :=
  s.appendClause (.mk .coalesce "" formatted "" [] "" emptyStmt)

/-- The `Desc()`. -/
def SQLStatement.descAppend (s : SQLStatement) : SQLStatement :=
  s.appendClause (mkClause .desc)

/-- The `Asc()`. -/
def SQLStatement.ascAppend (s : SQLStatement) : SQLStatement :=
  s.appendClause (mkClause .asc)

/-- The `Returning(columns...)`. -/
def SQLStatement.returningAppend (s : SQLStatement) (columns : List String) :
    SQLStatement :=
  s.appendClause (.mk .returning "" columns "" [] "" emptyStmt)

/-- The `Values(values...)`: appends a VALUES clause holding the given arguments.
The reflection branch that extracts field values from a struct matching the
statement's `ModelType` is not modelled; every modelled path stores the
arguments as given. -/
def SQLStatement.valuesAppend (s : SQLStatement) (vals : List SqlArg) :
    SQLStatement :=
  s.appendClause (.mk .values "" [] "" vals "" emptyStmt)

/-- The `Join(stmt, identifier, on, args...)`: the nested statement inherits the
outer driver when it has none. -/
def SQLStatement.joinAppend (s : SQLStatement) (stmt : SQLStatement)
    (identifier onExpr : String) (args : List SqlArg) : SQLStatement :=
  let stmt' := match stmt.driver with
    | none => SQLStatement.mk stmt.clauses s.driver
    | some _ => stmt
  s.appendClause (.mk .join "" [] onExpr args identifier stmt')

/-- Options for the statement constructors (`SqlOpts`). -/
structure SqlOpts where
  tableName : String
  fields : List String
  driver : Option Driver
deriving Repr

/-- The `getTableName(def, opts)`. -/
def getTableName (defName : String) (opts : Option SqlOpts) : String :=
  match opts with
  | none => defName
  | some o => if o.tableName = "" then defName else o.tableName

/-- The shared column-selection logic of `Insert`/`Select`/`Update`: keep the
schema's tag names (struct field order) and, when `opts.Fields` is non-empty,
only those contained in it.  The reflection that produces the tag names from
a struct type is outside the model; `schemaFields` is its result. -/
def filterFields (schemaFields : List String) (opts : Option SqlOpts) :
    List String :=
  match opts with
  | none => schemaFields
  | some o =>
    if o.fields.isEmpty then schemaFields
    else schemaFields.filter (fun n => o.fields.contains n)

/-- Driver selection shared by all constructors: `opts.Driver` when set,
`DefaultDriver` otherwise. -/
def driverFromOpts (opts : Option SqlOpts) : Driver :=
  match opts with
  | none => DefaultDriver
  | some o => o.driver.getD DefaultDriver

/-- The `Insert[T](opts)`: one-clause statement with the filtered column names;
`typeName` stands for the snake-cased struct type name. -/
def insertStmt (schemaFields : List String) (typeName : String)
    (opts : Option SqlOpts) : SQLStatement :=
  .mk (.cons (.mk .insert (getTableName typeName opts)
        (filterFields schemaFields opts) "" [] "" emptyStmt) .nil)
      (some (driverFromOpts opts))

/-- The `Select[T](opts)`. -/
def selectStmt (schemaFields : List String) (typeName : String)
    (opts : Option SqlOpts) : SQLStatement :=
  .mk (.cons (.mk .select (getTableName typeName opts)
        (filterFields schemaFields opts) "" [] "" emptyStmt) .nil)
      (some (driverFromOpts opts))

/-- The `Update[T](opts)`. -/
def updateStmt (schemaFields : List String) (typeName : String)
    (opts : Option SqlOpts) : SQLStatement :=
  .mk (.cons (.mk .update (getTableName typeName opts)
        (filterFields schemaFields opts) "" [] "" emptyStmt) .nil)
      (some (driverFromOpts opts))

/-- The `Delete[T](opts)`: no column names. -/
def deleteStmt (typeName : String) (opts : Option SqlOpts) : SQLStatement :=
  .mk (.cons (.mk .delete (getTableName typeName opts) [] "" [] "" emptyStmt) .nil)
      (some (driverFromOpts opts))

end SqlCompose

namespace V2Query

/-- The v2 dialect surface needed by the insert builder: the placeholder
function and the `SupportsReturning` feature flag. -/
structure Dialect where
  supportsReturning : Bool
  placeholder : Int → String

/-- The `MySQLDialect`: `?` placeholders, RETURNING unsupported. -/
def mysqlDialect : Dialect := ⟨false, fun _ => "?"⟩

/-- The `SQLiteDialect` (v2): `?` placeholders, RETURNING supported. -/
def sqliteDialect : Dialect := ⟨true, fun _ => "?"⟩

/-- The `fmt.Errorf` failures of `InsertBuilder.ToSQL`. -/
inductive V2Error where
  | noValuesToInsert
  | invalidTable
  | unsupportedReturning
deriving DecidableEq, Repr

/-- One row of column/value pairs.  Go uses `map[string]interface{}`, whose
iteration order is unspecified; the model fixes insertion order.  Values are
opaque to the builder and modelled as integers. -/
abbrev Row := List (String × Int)

/-- The `b.values[0][column] = value` on one row. -/
def rowSet (row : Row) (col : String) (v : Int) : Row :=
  if row.any (fun p => p.1 == col) then
    row.map (fun p => if p.1 == col then (col, v) else p)
  else row ++ [(col, v)]

/-- The `row[col]`: Go map lookup, `none` for an absent key (`nil`). -/
def lookupVal (row : Row) (col : String) : Option Int :=
  match row.find? (fun p => p.1 == col) with
  | some p => some p.2
  | none => none

/-- The `InsertBuilder`: the v2 INSERT query builder.  `tableName` stands for
`session.GetTableName(b.table)` (empty = invalid table). -/
structure InsertBuilder where
  tableName : String
  values : List Row
  returning : List String

/-- The `NewInsert(session, table)`. -/
def NewInsert (tableName : String) : InsertBuilder := ⟨tableName, [], []⟩

/-- The `Set(column, value)`: creates the first row when absent, then assigns into
it. -/
def InsertBuilder.set (b : InsertBuilder) (col : String) (v : Int) :
    InsertBuilder :=
  match b.values with
  | [] => ⟨b.tableName, [rowSet [] col v], b.returning⟩
  | r :: rest => ⟨b.tableName, rowSet r col v :: rest, b.returning⟩

/-- The `Returning(columns...)`. -/
def InsertBuilder.returningCols (b : InsertBuilder) (cols : List String) :
    InsertBuilder :=
  ⟨b.tableName, b.values, cols⟩

/-- The `InsertBuilder.ToSQL()`: validates values and table, assembles
`INSERT INTO t (cols) VALUES (?, …)[, …]` with the row arguments, and gates
the RETURNING suffix on the dialect's `SupportsReturning()`. -/
def InsertBuilder.ToSQL (b : InsertBuilder) (d : Dialect) :
    Except V2Error (String × List (Option Int)) :=
  match b.values with
  | [] => .error .noValuesToInsert
  | firstRow :: _ =>
    if b.tableName = "" then .error .invalidTable
    else
      let columns := firstRow.map Prod.fst
      let rowFrag := "(" ++ SqlCompose.strJoin ", " (columns.map (fun _ => "?")) ++ ")"
      let sql := "INSERT INTO " ++ b.tableName ++ " (" ++
        SqlCompose.strJoin ", " columns ++ ") VALUES " ++
        SqlCompose.strJoin ", " (b.values.map (fun _ => rowFrag))
      let args := (b.values.map (fun row => columns.map (fun col => lookupVal row col))).flatten
      if b.returning.isEmpty then .ok (sql, args)
      else if d.supportsReturning then
        .ok (sql ++ " RETURNING " ++ SqlCompose.strJoin ", " b.returning, args)
      else .error .unsupportedReturning

end V2Query

namespace TypeConv

/-- The semantic (reflect) types the registry discriminates on: the plain
driver types, the `sql.Null*` box types and pointer types. -/
inductive GoType where
  | goString
  | goInt64
  | goFloat64
  | goBool
  | goBytes
  | goTime
  | nullBool
  | nullByte
  | nullFloat64
  | nullInt16
  | nullInt32
  | nullInt64
  | nullString
  | nullTime
  | ptr (elem : GoType)
deriving DecidableEq, Repr

/-- The `isNullableType`: the `sql.Null*` box types and pointer types can hold
null. -/
def isNullableType : GoType → Bool
  | .nullBool => true
  | .nullByte => true
  | .nullFloat64 => true
  | .nullInt16 => true
  | .nullInt32 => true
  | .nullInt64 => true
  | .nullString => true
  | .nullTime => true
  | .ptr _ => true
  | _ => false

/-- A dynamically typed value (`interface{}` with a concrete type); the
payload is opaque to the registry. -/
structure GoValue where
  typ : GoType
  payload : Nat
deriving DecidableEq, Repr

/-- The `reflect.Zero(t).Interface()`. -/
def zeroValue (t : GoType) : GoValue := ⟨t, 0⟩

/-- The `reflect.Type.AssignableTo`: for the distinct named types and pointer
types in this universe Go assignability coincides with type identity. -/
def assignableTo (source target : GoType) : Bool := source == target

/-- Conversion failures surfaced by `Registry.Convert` (its `fmt.Errorf`
cases, plus failures raised by individual converters). -/
inductive ConvError where
  | nonNullableNil (target : GoType)
  | noConverter (source target : GoType)
  | converterFailure (message : String)
deriving DecidableEq, Repr

/-- The `ConverterFunc`. -/
abbrev ConverterFunc := GoValue → Except ConvError GoValue

/-- The `Registry`: the `(source, target) → converter` map and the
`target → default converter` map, modelled as association lists with
first-match lookup. -/
structure Registry where
  converters : List ((GoType × GoType) × ConverterFunc)
  defaults : List (GoType × ConverterFunc)

/-- The `NewRegistry()`: both maps empty. -/
def NewRegistry : Registry := ⟨[], []⟩

/-- The `Register`: map insertion; prepending gives Go's overwrite semantics
(later registrations shadow earlier ones on lookup). -/
def Registry.register (r : Registry) (sourceType targetType : GoType)
    (converter : ConverterFunc) : Registry :=
  ⟨((sourceType, targetType), converter) :: r.converters, r.defaults⟩

/-- The `RegisterDefault`. -/
def Registry.registerDefault (r : Registry) (targetType : GoType)
    (converter : ConverterFunc) : Registry :=
  ⟨r.converters, (targetType, converter) :: r.defaults⟩

/-- Lookup in the pair-converter map (`r.converters[TypePair{s, t}]`). -/
def findPair : List ((GoType × GoType) × ConverterFunc) → GoType → GoType →
    Option ConverterFunc
  | [], _, _ => none
  | (key, f) :: rest, s, t => if key = (s, t) then some f else findPair rest s t

/-- Lookup in the default-converter map (`r.defaults[t]`). -/
def findDefault : List (GoType × ConverterFunc) → GoType → Option ConverterFunc
  | [], _ => none
  | (key, f) :: rest, t => if key = t then some f else findDefault rest t

/-- The `Registry.Convert(source, targetType)`: nil handling, exact pair
converter, default converter, assignability pass-through, no-converter
error — in that order. -/
def Registry.Convert (r : Registry) (source : Option GoValue)
    (targetType : GoType) : Except ConvError GoValue :=
  match source with
  | none =>
    if isNullableType targetType then .ok (zeroValue targetType)
    else .error (.nonNullableNil targetType)
  | some v =>
    let sourceType := v.typ
    match findPair r.converters sourceType targetType with
    | some converter => converter v
    | none =>
      match findDefault r.defaults targetType with
      | some converter => converter v
      | none =>
        if assignableTo sourceType targetType then .ok v
        else .error (.noConverter sourceType targetType)

/-- The v2 `SQLiteDialect` as far as its registry field is concerned: a
pointer that is `nil` for a zero-value dialect not built by
`NewSQLiteDialect`. -/
structure SQLiteDialect where
  registry : Option Registry

/-- The `TypeRegistry()`: pointer-nil-checked lazy initialisation.  The model
returns the (never-nil) registry together with the dialect as updated by the
assignment `d.registry = typeconv.NewRegistry()`. -/
def SQLiteDialect.TypeRegistry : SQLiteDialect → Registry × SQLiteDialect
  | ⟨some r⟩ => (r, ⟨some r⟩)
  | ⟨none⟩ => (NewRegistry, ⟨some NewRegistry⟩)

/-- A sample converter used to witness the dispatch order (payload-preserving
string-to-time conversion). -/
def exPairConverter : ConverterFunc := fun v => .ok ⟨.goTime, v.payload⟩

/-- A sample default converter used to witness the dispatch order. -/
def exDefaultConverter : ConverterFunc := fun v => .ok ⟨.nullTime, v.payload + 1⟩

end TypeConv

namespace SqlCompose

/-- The nested-statement admissibility check performed by `renderJoinClause`:
the nested clause list is non-empty and its leading clause is a SELECT, or a
DML clause on a statement carrying a RETURNING clause. -/
def joinNestedLeadOK (s : SQLStatement) : Bool :=
  match s.clauses with
  | .nil => false
  | .cons nc _ =>
    match nc.ctype with
    | .select => true
    | .insert => s.clauses.hasReturning
    | .update => s.clauses.hasReturning
    | .delete => s.clauses.hasReturning
    | _ => false

/-- The conditions under which `renderJoinClause` accepts a JOIN's placement:
SELECT-leading statement, a predecessor that is none of
WHERE/ORDER BY/LIMIT/OFFSET/RETURNING, and an admissible nested statement. -/
def joinPlacementOK (leading : ClauseType) (prev : Option SqlClause)
    (c : SqlClause) : Prop :=
  leading = .select ∧
  (∃ pc, prev = some pc ∧
    ¬(pc.ctype = .whereClause ∨ pc.ctype = .orderBy ∨ pc.ctype = .limit ∨
      pc.ctype = .offset ∨ pc.ctype = .returning)) ∧
  joinNestedLeadOK c.joinStatement = true

/-- C5's statement: `SELECT` over `user`, `WHERE id=? AND name=?`, `LIMIT`,
on the `$N` dialect. -/
def dollarNumberingStmt : SQLStatement :=
  ((selectStmt ["id", "name"] "user" (some ⟨"", [], some .postgres⟩)).whereAppend
      "id=? AND name=?" [1, 2]).limitAppend 10

/-- C1's concrete statement: an INSERT built from a 5-field schema followed by
a VALUES clause supplying 2 values. -/
def fiveFieldTwoValues : SQLStatement :=
  (insertStmt ["a", "b", "c", "d", "e"] "widget" none).valuesAppend [10, 20]

/-- C3's counterexample statement: an INSERT built from a schema, with no
VALUES clause. -/
def bareInsertStmt : SQLStatement :=
  insertStmt ["name"] "widget" none

/-- C7's counterexample statement: a JOIN whose immediate predecessor is a
DESC clause (neither SELECT nor another JOIN). -/
def joinAfterDescStmt : SQLStatement :=
  (((selectStmt ["id"] "user" none).orderByAppend ["id"]).descAppend).joinAppend
    (selectStmt ["x"] "t2" none) "a" "1=1" []

/-- The clause kinds of a clause list, in order. -/
def Clauses.kinds : Clauses → List ClauseType
  | .nil => []
  | .cons c rest => c.ctype :: rest.kinds

/-- A string free of `?` characters: rendered as-is by the question-mark
dialect without creating placeholder tokens. -/
def noQ (s : String) : Bool := countQMarks s == 0

/-- The part of a rendered INSERT fragment before its ` VALUES ` keyword:
`INSERT INTO <table> (<cols>)`. -/
def insertPrefix (c : SqlClause) : String :=
  "INSERT INTO " ++ c.tableName ++ " (" ++ strJoin ", " c.columnNames ++ ")"

/-- The `n` question-mark placeholder tokens. -/
def qMarksList (n : Nat) : List String := List.replicate n "?"

/-- The INSERT fragment produced by `writeClause` under the question-mark
renderer (whose placeholders do not depend on the position). -/
def insertFragQ (c : SqlClause) : String :=
  insertPrefix c ++ " VALUES (" ++ strJoin ", " (qMarksList c.columnNames.length) ++ ")"

/-- Whether a statement's driver renders question-mark placeholders
(no driver defaults to `SQLiteDriver{}`). -/
def driverIsQuestion : Option Driver → Bool
  | none => true
  | some .sqlite => true
  | some .postgres => false

/-- Placeholders pending after one clause: an INSERT or UPDATE clause has
rendered one placeholder per column whose arguments are supplied by the
following VALUES clause. -/
def pendingOf : Option SqlClause → Nat
  | some pc =>
    match pc.ctype with
    | .insert => pc.columnNames.length
    | .update => pc.columnNames.length
    | _ => 0
  | none => 0

/-- The argument-matching lookahead: an INSERT clause must be followed
immediately by a VALUES clause (which determines the placeholder count), and
an UPDATE clause by a VALUES clause supplying one argument per SET column. -/
def followPrev (prev : Option SqlClause) (cls : Clauses) : Bool :=
  match prev with
  | none => true
  | some pc =>
    match pc.ctype with
    | .insert =>
      match cls with
      | .cons v _ => v.ctype == ClauseType.values
      | .nil => false
    | .update =>
      match cls with
      | .cons v _ => (v.ctype == ClauseType.values) &&
          (v.args.length == pc.columnNames.length)
      | .nil => false
    | _ => true

mutual

/-- A statement on the question-mark dialect whose clauses all keep bound
arguments in one-to-one correspondence with the placeholder markers they
render (the hypothesis under which placeholder/argument parity holds). -/
def wfStmt : SQLStatement → Bool
  | .mk cls d => driverIsQuestion d && wfClauses cls

def wfClauses : Clauses → Bool
  | .nil => true
  | .cons c rest => wfClauseSelf c && followPrev (some c) rest && wfClauses rest

/-- Per-clause argument/marker discipline: expression templates carry exactly
one `?` marker per bound argument, LIMIT/OFFSET carry their single argument,
identifier-only clauses carry no arguments, and no identifier contains a `?`
character (for an INSERT, additionally, the first ` VALUES ` occurrence of its
rendered fragment sits exactly at the column-list boundary). -/
def wfClauseSelf : SqlClause → Bool
  | .mk t tn cols e args idf js =>
    match t with
    | .select => args.isEmpty && noQ tn && cols.all noQ
    | .insert => args.isEmpty && noQ tn && cols.all noQ &&
        (strIndex (insertFragQ (.mk t tn cols e args idf js)) " VALUES " ==
          some (insertPrefix (.mk t tn cols e args idf js)).data.length)
    | .update => args.isEmpty && noQ tn && cols.all noQ
    | .delete => args.isEmpty && noQ tn
    | .whereClause => countQMarks e == args.length
    | .orderBy => args.isEmpty && cols.all noQ
    | .limit => args.length == 1
    | .offset => args.length == 1
    | .coalesce => args.isEmpty && cols.all noQ
    | .desc => args.isEmpty
    | .asc => args.isEmpty
    | .returning => args.isEmpty && cols.all noQ
    | .values => true
    | .join => (countQMarks e == args.length) && noQ idf && wfStmt js

end

/-- Total `?` count over a list of fragments. -/
def sumMarks (parts : List String) : Nat :=
  (parts.map countQMarks).sum

/-- The UPDATE fragment produced by `writeClause` under the question-mark
renderer. -/
def updateFragQ (c : SqlClause) : String :=
  "UPDATE " ++ c.tableName ++ " SET " ++
    strJoin ", " (c.columnNames.map (fun col => col ++ "=" ++ "?"))

/-- C3's amended-claim witness statement: an INSERT/VALUES pair under the
argument-matching discipline. -/
def parityWitnessStmt : SQLStatement :=
  (insertStmt ["a", "b", "c"] "t" none).valuesAppend [1, 2]

/-- The placeholder/argument parity invariant of one `renderLoop` pass at
recursion budget `n`: under the argument-matching discipline, a successful
pass adds exactly as many `?` marks to the fragment list as the processed
clauses contribute arguments, up to the placeholders pending from a just-
rendered INSERT/UPDATE clause. -/
def ParityStmt (n : Nat) : Prop :=
  ∀ (cls : Clauses) (leading : ClauseType) (prev : Option SqlClause)
    (parts parts' : List String) (argPosition usedTotal used' : Int),
    sizeOf cls ≤ n →
    wfClauses cls = true →
    followPrev prev cls = true →
    (∀ pc, prev = some pc → pc.ctype = ClauseType.insert →
      parts.getLast? = some (insertFragQ pc) ∧ wfClauseSelf pc = true) →
    renderLoop .sqlite .question leading prev parts argPosition usedTotal cls =
      .ok (parts', used') →
    sumMarks parts' + pendingOf prev =
      sumMarks parts + (Clauses.argsList cls).length

end SqlCompose

namespace SqlCompose

/-- C9: a statement with an empty clause list writes as the empty string with
no error — the trailing terminator is skipped even on a terminator-requesting
driver — and its argument list is empty. -/
theorem c9_empty_statement_write :
    ∀ d : Option Driver,
      (SQLStatement.mk .nil d).Write = .ok "" ∧
      (SQLStatement.mk .nil d).argsList = [] := by
  intro d
  cases d with
  | none => exact ⟨rfl, rfl⟩
  | some dr => cases dr <;> exact ⟨rfl, rfl⟩

/-- C5: `WHERE id=? AND name=?` followed by `LIMIT ?` on the `$N` dialect
renders the placeholders `$1`, `$2`, `$3` in left-to-right appearance order
(first occurrences at character offsets 35, 47 and 56). -/
theorem c5_dollar_numbering :
    dollarNumberingStmt.Write =
      .ok "SELECT id, name FROM user WHERE id=$1 AND name=$2 LIMIT $3" ∧
    strIndex "SELECT id, name FROM user WHERE id=$1 AND name=$2 LIMIT $3" "$1" =
      some 35 ∧
    strIndex "SELECT id, name FROM user WHERE id=$1 AND name=$2 LIMIT $3" "$2" =
      some 47 ∧
    strIndex "SELECT id, name FROM user WHERE id=$1 AND name=$2 LIMIT $3" "$3" =
      some 56 := by
  refine ⟨rfl, by decide, by decide, by decide⟩

end SqlCompose

namespace TypeConv

/-- C4: `Convert` resolves in order — nil source yields the target's zero
value when the target is nullable and the non-nullable-target error otherwise;
then the exact pair converter, then the target's default converter, then
assignability pass-through, and finally the no-converter error naming both
types. -/
theorem c4_convert_resolution_order :
    (∀ (r : Registry) (t : GoType), isNullableType t = true →
        r.Convert none t = .ok (zeroValue t)) ∧
    (∀ (r : Registry) (t : GoType), isNullableType t = false →
        r.Convert none t = .error (.nonNullableNil t)) ∧
    (∀ (r : Registry) (v : GoValue) (t : GoType) (conv : ConverterFunc),
        findPair r.converters v.typ t = some conv →
        r.Convert (some v) t = conv v) ∧
    (∀ (r : Registry) (v : GoValue) (t : GoType) (conv : ConverterFunc),
        findPair r.converters v.typ t = none →
        findDefault r.defaults t = some conv →
        r.Convert (some v) t = conv v) ∧
    (∀ (r : Registry) (v : GoValue) (t : GoType),
        findPair r.converters v.typ t = none →
        findDefault r.defaults t = none →
        assignableTo v.typ t = true →
        r.Convert (some v) t = .ok v) ∧
    (∀ (r : Registry) (v : GoValue) (t : GoType),
        findPair r.converters v.typ t = none →
        findDefault r.defaults t = none →
        assignableTo v.typ t = false →
        r.Convert (some v) t = .error (.noConverter v.typ t)) := by
  refine ⟨?_, ?_, ?_, ?_, ?_, ?_⟩
  · intro r t h; simp [Registry.Convert, h]
  · intro r t h; simp [Registry.Convert, h]
  · intro r v t conv h; simp [Registry.Convert, h]
  · intro r v t conv h1 h2; simp [Registry.Convert, h1, h2]
  · intro r v t h1 h2 h3; simp [Registry.Convert, h1, h2, h3]
  · intro r v t h1 h2 h3; simp [Registry.Convert, h1, h2, h3]

/-- Witness for C4: each dispatch rule applied at a concrete registry, value
and target type. -/
theorem c4_convert_resolution_order_witness :
    (NewRegistry.Convert none .nullTime = .ok (zeroValue .nullTime)) ∧
    (NewRegistry.Convert none .goTime = .error (.nonNullableNil .goTime)) ∧
    ((NewRegistry.register .goString .goTime exPairConverter).Convert
        (some ⟨.goString, 7⟩) .goTime = exPairConverter ⟨.goString, 7⟩) ∧
    ((NewRegistry.registerDefault .goTime exDefaultConverter).Convert
        (some ⟨.goString, 7⟩) .goTime = exDefaultConverter ⟨.goString, 7⟩) ∧
    (NewRegistry.Convert (some ⟨.goString, 7⟩) .goString = .ok ⟨.goString, 7⟩) ∧
    (NewRegistry.Convert (some ⟨.goString, 7⟩) .goTime =
        .error (.noConverter .goString .goTime)) := by
  refine ⟨?_, ?_, ?_, ?_, ?_, ?_⟩
  · exact c4_convert_resolution_order.1 NewRegistry .nullTime (by decide)
  · exact c4_convert_resolution_order.2.1 NewRegistry .goTime (by decide)
  · exact c4_convert_resolution_order.2.2.1 _ _ _ exPairConverter rfl
  · exact c4_convert_resolution_order.2.2.2.1 _ _ _ exDefaultConverter rfl rfl
  · exact c4_convert_resolution_order.2.2.2.2.1 _ _ _ rfl rfl (by decide)
  · exact c4_convert_resolution_order.2.2.2.2.2 _ _ _ rfl rfl (by decide)

/-- C10: `TypeRegistry` on a zero-value dialect installs and returns a fresh
registry with no pair converters and no default converters, and on that
registry `Convert` with a non-nil value succeeds exactly on directly
assignable types, failing with the no-converter error otherwise. -/
theorem c10_lazy_type_registry :
    (SQLiteDialect.TypeRegistry ⟨none⟩ = (NewRegistry, ⟨some NewRegistry⟩)) ∧
    NewRegistry.converters = [] ∧
    NewRegistry.defaults = [] ∧
    (∀ (v : GoValue) (t : GoType), assignableTo v.typ t = true →
        NewRegistry.Convert (some v) t = .ok v) ∧
    (∀ (v : GoValue) (t : GoType), assignableTo v.typ t = false →
        NewRegistry.Convert (some v) t = .error (.noConverter v.typ t)) := by
  refine ⟨rfl, rfl, rfl, ?_, ?_⟩
  · intro v t h; simp [Registry.Convert, NewRegistry, findPair, findDefault, h]
  · intro v t h; simp [Registry.Convert, NewRegistry, findPair, findDefault, h]

/-- Witness for C10: the fresh registry applied to an assignable and to a
non-assignable concrete pair. -/
theorem c10_lazy_type_registry_witness :
    (NewRegistry.Convert (some ⟨.goString, 3⟩) .goString = .ok ⟨.goString, 3⟩) ∧
    (NewRegistry.Convert (some ⟨.goString, 3⟩) .goTime =
        .error (.noConverter .goString .goTime)) :=
  ⟨c10_lazy_type_registry.2.2.2.1 ⟨.goString, 3⟩ .goString (by decide),
   c10_lazy_type_registry.2.2.2.2 ⟨.goString, 3⟩ .goTime (by decide)⟩

end TypeConv

namespace V2Query

/-- C8 counterexample: an insert builder that carries a RETURNING clause but
no values fails on the RETURNING-unsupported dialect with the
no-values-to-insert error, not the unsupported-RETURNING error. -/
theorem c8_returning_counterexample :
    ((NewInsert "users").returningCols ["id"]).ToSQL mysqlDialect =
      .error .noValuesToInsert ∧
    V2Error.noValuesToInsert ≠ V2Error.unsupportedReturning :=
  ⟨rfl, by decide⟩

/-- C8 (amended): on the RETURNING-unsupported dialect, a builder carrying a
RETURNING clause never renders successfully, and whenever it passes the
earlier validation (non-empty values, valid table) the failure is the
unsupported-RETURNING error with no SQL produced. -/
theorem c8_returning_unsupported :
    (∀ (b : InsertBuilder), b.returning ≠ [] →
        ∀ out, b.ToSQL mysqlDialect ≠ .ok out) ∧
    (∀ (b : InsertBuilder), b.returning ≠ [] → b.values ≠ [] →
        b.tableName ≠ "" →
        b.ToSQL mysqlDialect = .error .unsupportedReturning) := by
  constructor
  · intro b hret out
    cases b with
    | mk tableName vals ret =>
      cases vals with
      | nil => simp [InsertBuilder.ToSQL]
      | cons firstRow restRows =>
        simp only [InsertBuilder.ToSQL]
        by_cases ht : tableName = ""
        · simp [ht]
        · have hre : ret.isEmpty = false := by
            cases ret with
            | nil => exact absurd rfl hret
            | cons a l => rfl
          simp [ht, hre, mysqlDialect]
  · intro b hret hvals ht
    cases b with
    | mk tableName vals ret =>
      cases vals with
      | nil => exact absurd rfl hvals
      | cons firstRow restRows =>
        have hre : ret.isEmpty = false := by
          cases ret with
          | nil => exact absurd rfl hret
          | cons a l => rfl
        simp [InsertBuilder.ToSQL, ht, hre, mysqlDialect]

/-- Witness for C8: `Insert` with a value set and `Returning("id")` on the
RETURNING-unsupported dialect fails with the unsupported-RETURNING error. -/
theorem c8_returning_unsupported_witness :
    (((NewInsert "users").set "name" 5).returningCols ["id"]).ToSQL
        mysqlDialect = .error .unsupportedReturning :=
  c8_returning_unsupported.2 (((NewInsert "users").set "name" 5).returningCols
    ["id"]) (by decide) (by decide) (by decide)

end V2Query

namespace SqlCompose

/-- Both drivers render a COALESCE clause with at least two arguments as the
pure-text fragment `COALESCE(arg1, …)`, consuming no placeholder. -/
theorem write_coalesce_ok (d : Driver) (c : SqlClause) (pos : Int)
    (hc : c.ctype = .coalesce) (hlen : 2 ≤ c.columnNames.length) :
    d.write c pos = .ok ("COALESCE(" ++ strJoin ", " c.columnNames ++ ")", 0) := by
  have h2 : ¬ c.columnNames.length < 2 := by omega
  cases d <;> simp [Driver.write, writeClause, hc, h2]

/-- A COALESCE clause with fewer than two arguments fails inside
`writeClause` with the invalid-COALESCE-arguments error on both drivers. -/
theorem write_coalesce_error (d : Driver) (c : SqlClause) (pos : Int)
    (hc : c.ctype = .coalesce) (hlen : c.columnNames.length < 2) :
    d.write c pos = .error (.invalidCoalesceArgs c.columnNames.length) := by
  cases d <;> simp [Driver.write, writeClause, hc, hlen]

/-- C6: a COALESCE clause is spliced, never appended — after a SELECT
predecessor, the text `, COALESCE(args)` is inserted into the previously
rendered SELECT fragment just before its `FROM` boundary (the list of
fragments gains no new element); a COALESCE clause with fewer than two
arguments always fails with the invalid-COALESCE-arguments error; a COALESCE
clause with two or more arguments but no SELECT predecessor fails with the
misplaced-clause error. -/
theorem c6_coalesce_splice :
    (∀ (driver : Driver) (renderer : Renderer) (leading : ClauseType)
        (pc c : SqlClause) (parts : List String) (sel : String)
        (argPosition usedTotal : Int) (rest : Clauses) (idx : Nat),
        c.ctype = .coalesce → 2 ≤ c.columnNames.length → pc.ctype = .select →
        strIndex sel " FROM " = some idx →
        renderLoop driver renderer leading (some pc) (parts ++ [sel])
            argPosition usedTotal (.cons c rest) =
          renderLoop driver renderer leading (some c)
            (parts ++ [strTake sel idx ++ ", " ++
              ("COALESCE(" ++ strJoin ", " c.columnNames ++ ")") ++ strDrop sel idx])
            argPosition usedTotal rest) ∧
    (∀ (driver : Driver) (renderer : Renderer) (leading : ClauseType)
        (prev : Option SqlClause) (parts : List String)
        (argPosition usedTotal : Int) (c : SqlClause) (rest : Clauses),
        c.ctype = .coalesce → c.columnNames.length < 2 →
        renderLoop driver renderer leading prev parts argPosition usedTotal
            (.cons c rest) =
          .error (.invalidCoalesceArgs c.columnNames.length)) ∧
    (∀ (driver : Driver) (renderer : Renderer) (leading : ClauseType)
        (prev : Option SqlClause) (parts : List String)
        (argPosition usedTotal : Int) (c : SqlClause) (rest : Clauses),
        c.ctype = .coalesce → 2 ≤ c.columnNames.length →
        prevType prev ≠ some .select →
        renderLoop driver renderer leading prev parts argPosition usedTotal
            (.cons c rest) =
          .error (.misplacedClause "COALESCE")) := by
  refine ⟨?_, ?_, ?_⟩
  · intro driver renderer leading pc c parts sel argPosition usedTotal rest idx
      hc hlen hpc hsel
    have hw := write_coalesce_ok driver c argPosition hc hlen
    have hprev : prevType (some pc) = some ClauseType.select := by
      simp [prevType, hpc]
    simp [renderLoop, hc, hw, hprev, hsel, updateLast, ClauseType.name]
  · intro driver renderer leading prev parts argPosition usedTotal c rest hc hlen
    have hw := write_coalesce_error driver c argPosition hc hlen
    simp [renderLoop, hc, hw]
  · intro driver renderer leading prev parts argPosition usedTotal c rest hc hlen
      hprev
    have hw := write_coalesce_ok driver c argPosition hc hlen
    simp [renderLoop, hc, hw, hprev, ClauseType.name]

/-- Witness for C6: the splice equation and both failure modes at concrete
inputs, including the end-to-end `Select(...).Coalesce("a")` failure. -/
theorem c6_coalesce_splice_witness :
    (renderLoop .sqlite .question .select (some (mkClause .select))
        (["SELECT id FROM user"]) 1 0
        (.cons (.mk .coalesce "" ["a", "b"] "" [] "" emptyStmt) .nil) =
      renderLoop .sqlite .question .select
        (some (.mk .coalesce "" ["a", "b"] "" [] "" emptyStmt))
        (["SELECT id, COALESCE(a, b) FROM user"]) 1 0 .nil) ∧
    (renderLoop .sqlite .question .select (some (mkClause .select))
        (["SELECT id FROM user"]) 1 0
        (.cons (.mk .coalesce "" ["a"] "" [] "" emptyStmt) .nil) =
      .error (.invalidCoalesceArgs 1)) ∧
    (renderLoop .sqlite .question .orderBy (some (mkClause .orderBy)) [] 1 0
        (.cons (.mk .coalesce "" ["a", "b"] "" [] "" emptyStmt) .nil) =
      .error (.misplacedClause "COALESCE")) ∧
    ((selectStmt ["id"] "user" none).coalesceAppend ["a"]).Write =
      .error (.invalidCoalesceArgs 1) := by
  refine ⟨?_, ?_, ?_, by rfl⟩
  · have h := c6_coalesce_splice.1 .sqlite .question .select (mkClause .select)
      (.mk .coalesce "" ["a", "b"] "" [] "" emptyStmt) [] "SELECT id FROM user"
      1 0 .nil 9 rfl (by decide) rfl (by decide)
    simpa using h
  · exact c6_coalesce_splice.2.1 .sqlite .question .select
      (some (mkClause .select)) ["SELECT id FROM user"] 1 0
      (.mk .coalesce "" ["a"] "" [] "" emptyStmt) .nil rfl (by decide)
  · exact c6_coalesce_splice.2.2 .sqlite .question .orderBy
      (some (mkClause .orderBy)) [] 1 0
      (.mk .coalesce "" ["a", "b"] "" [] "" emptyStmt) .nil rfl (by decide)
      (by decide)

/-- C1: a VALUES clause immediately preceded by an INSERT clause that reserved
`N = len(insert.ColumnNames)` placeholders replaces the INSERT fragment's
`VALUES (...)` tuple with a tuple of exactly `M = len(values.Args)`
placeholders whose positions start at the running position minus `N`, and both
the running position and the total-consumed counters are corrected by
`−N + M`; in particular the INSERT built from a 5-field schema followed by a
VALUES clause supplying 2 values renders a 2-placeholder VALUES tuple whose
VALUES clause contributes exactly the 2 supplied values to `Args()`. -/
theorem c1_values_override :
    (∀ (driver : Driver) (renderer : Renderer) (leading : ClauseType)
        (pc c : SqlClause) (parts : List String) (insertFrag : String)
        (argPosition usedTotal : Int) (rest : Clauses) (idx : Nat),
        pc.ctype = .insert → c.ctype = .values →
        strIndex insertFrag " VALUES " = some idx →
        renderLoop driver renderer leading (some pc) (parts ++ [insertFrag])
            argPosition usedTotal (.cons c rest) =
          renderLoop driver renderer leading (some c)
            (parts ++ [strTake insertFrag idx ++ " VALUES (" ++
              strJoin ", " ((List.range c.args.length).map
                (fun (j : Nat) => renderer.placeholder
                  (argPosition - (pc.columnNames.length : Int) + (j : Int)))) ++ ")"])
            (argPosition - (pc.columnNames.length : Int) + (c.args.length : Int))
            (usedTotal - (pc.columnNames.length : Int) + (c.args.length : Int))
            rest) ∧
    fiveFieldTwoValues.Write =
      .ok "INSERT INTO widget (a, b, c, d, e) VALUES (?, ?);" ∧
    fiveFieldTwoValues.argsList = [10, 20] := by
  refine ⟨?_, by rfl, by rfl⟩
  intro driver renderer leading pc c parts insertFrag argPosition usedTotal rest
    idx hpc hc hidx
  simp [renderLoop, hc, hpc, hidx, updateLast]

/-- Witness for C1: the VALUES-splice equation applied at a concrete render
state — an INSERT fragment with three reserved placeholders at positions 2–4
overridden by a two-argument VALUES clause, re-placeholdered from position
`5 − 3 = 2` on the `$N` renderer. -/
theorem c1_values_override_witness :
    renderLoop .postgres .dollar .insert
        (some (.mk .insert "t" ["x", "y", "z"] "" [] "" emptyStmt))
        ["INSERT INTO t (x, y, z) VALUES ($2, $3, $4)"] 5 4
        (.cons (.mk .values "" [] "" [7, 8] "" emptyStmt) .nil) =
      renderLoop .postgres .dollar .insert
        (some (.mk .values "" [] "" [7, 8] "" emptyStmt))
        ["INSERT INTO t (x, y, z) VALUES ($2, $3)"] 4 3 .nil := by
  have h := c1_values_override.1 .postgres .dollar .insert
    (.mk .insert "t" ["x", "y", "z"] "" [] "" emptyStmt)
    (.mk .values "" [] "" [7, 8] "" emptyStmt) []
    "INSERT INTO t (x, y, z) VALUES ($2, $3, $4)" 5 4 .nil 23
    rfl rfl (by decide)
  simpa using h

theorem strMk_nil_append (s : String) : (⟨[]⟩ : String) ++ s = s := by
  cases s with
  | mk d => rfl

theorem strMk_cons_append (c : Char) (l : List Char) (s : String) :
    (⟨c :: l⟩ : String) ++ s = String.singleton c ++ ((⟨l⟩ : String) ++ s) := by
  cases s with
  | mk d => rfl

/-- The total marker count returned by the placeholder-substitution walk is
the starting count plus the number of `?` characters remaining. -/
theorem replacePlaceholdersAux_count (r : Renderer) (p : Int) (l : List Char)
    (k : Int) :
    (replacePlaceholdersAux r p l k).2 = k + (l.count '?' : Int) := by
  induction l generalizing k with
  | nil => simp [replacePlaceholdersAux]
  | cons ch rest ih =>
    by_cases h : ch = '?'
    · subst h
      simp only [replacePlaceholdersAux, if_pos rfl, ih, List.count_cons_self]
      push_cast
      ring
    · have hbe : ¬ (('?' : Char) == ch) = true := by
        simp [BEq.beq]
        exact fun he => h he.symm
      simp only [replacePlaceholdersAux, if_neg h, ih, List.count_cons]
      simp [hbe, h]

/-- A marker-free prefix passes through the placeholder-substitution walk
unchanged. -/
theorem replacePlaceholdersAux_append_noq (r : Renderer) (p : Int)
    (pre l : List Char) (k : Int) (h : '?' ∉ pre) :
    replacePlaceholdersAux r p (pre ++ l) k =
      ((⟨pre⟩ : String) ++ (replacePlaceholdersAux r p l k).1,
       (replacePlaceholdersAux r p l k).2) := by
  induction pre with
  | nil => simp [strMk_nil_append]
  | cons ch tl ih =>
    have hch : ch ≠ '?' := fun he => h (he ▸ List.mem_cons_self ch tl)
    have htl : '?' ∉ tl := fun hm => h (List.mem_cons_of_mem ch hm)
    simp only [List.cons_append, replacePlaceholdersAux, if_neg hch,
      strMk_cons_append]
    show (String.singleton ch ++ (replacePlaceholdersAux r p (tl ++ l) k).1,
          (replacePlaceholdersAux r p (tl ++ l) k).2) =
        (String.singleton ch ++ ((⟨tl⟩ : String) ++ (replacePlaceholdersAux r p l k).1),
          (replacePlaceholdersAux r p l k).2)
    rw [ih htl]

/-- C2: a JOIN clause that passes placement validation renders the nested
statement recursively at the current position using the nested driver's own
renderer, renders the ON expression starting at `position + nested-consumed`,
emits exactly `JOIN (<nested sql>) <alias> ON <on-expression>`, and consumes
`nested-consumed + on-consumed` placeholders; the second conjunct pins the
offset down: the first `?` marker of an expression substituted at position
`p` renders as `placeholder(p)`. -/
theorem c2_join_render :
    (∀ (leading : ClauseType) (pc c : SqlClause) (driver : Driver)
        (renderer : Renderer) (argPosition : Int) (innerSQL : String)
        (usedInner : Int),
        leading = .select →
        ¬(pc.ctype = .whereClause ∨ pc.ctype = .orderBy ∨ pc.ctype = .limit ∨
          pc.ctype = .offset ∨ pc.ctype = .returning) →
        joinNestedLeadOK c.joinStatement = true →
        renderClauses c.joinStatement (c.joinStatement.driver.getD driver)
            (rendererForDriver (c.joinStatement.driver.getD driver)) argPosition =
          .ok (innerSQL, usedInner) →
        renderJoinClause leading (some pc) c driver renderer argPosition =
          .ok ("JOIN (" ++ innerSQL ++ ") " ++ c.identifier ++ " ON " ++
                (replacePlaceholders c.expr (argPosition + usedInner) renderer).1,
               usedInner +
                (replacePlaceholders c.expr (argPosition + usedInner) renderer).2)) ∧
    (∀ (expr : String) (pos : Int) (r : Renderer) (pre rest : List Char),
        expr.data = pre ++ '?' :: rest → '?' ∉ pre →
        (replacePlaceholders expr pos r).1 =
          (⟨pre⟩ : String) ++ r.placeholder pos ++
            (replacePlaceholdersAux r pos rest 1).1) := by
  constructor
  · intro leading pc c driver renderer argPosition innerSQL usedInner hlead hpc
      hnested hinner
    subst hlead
    cases c with
    | mk t tn cols e args idf js =>
      simp only [SqlClause.joinStatement] at hnested hinner
      simp only [SqlClause.identifier, SqlClause.expr]
      cases hcl : js.clauses with
      | nil => rw [joinNestedLeadOK, hcl] at hnested; exact absurd hnested (by simp)
      | cons nc ntail =>
        rw [joinNestedLeadOK, hcl] at hnested
        simp only [renderJoinClause, hcl, hpc, hinner]
        simp [hnested, hpc, hinner, hcl]
        exact hnested
  · intro expr pos r pre rest hsplit hnoq
    have hwalk := replacePlaceholdersAux_append_noq r pos pre ('?' :: rest) 0 hnoq
    have hcount : (replacePlaceholdersAux r pos (pre ++ '?' :: rest) 0).2 =
        0 + ((pre ++ '?' :: rest).count '?' : Int) :=
      replacePlaceholdersAux_count r pos (pre ++ '?' :: rest) 0
    have hpos : ((pre ++ '?' :: rest).count '?' : Int) ≠ 0 := by
      have : 0 < (pre ++ '?' :: rest).count '?' := by
        have := List.count_cons_self ('?' : Char) rest
        have hle : ('?' :: rest).count '?' ≤ (pre ++ '?' :: rest).count '?' := by
          rw [List.count_append]
          omega
        omega
      omega
    unfold replacePlaceholders
    rw [hsplit]
    have hne : ¬ (replacePlaceholdersAux r pos (pre ++ '?' :: rest) 0).2 = 0 := by
      rw [hcount]; omega
    simp only [if_neg hne]
    rw [hwalk]
    simp only [replacePlaceholdersAux, if_pos rfl]
    rw [Int.add_zero]
    simp [String.append_assoc]

/-- Witness for C2: a JOIN over a nested SELECT consuming one placeholder on
the `$N` dialect — the ON expression's marker renders as `$2`, not `$1`, and
the fragment and consumed count are as stated. -/
theorem c2_join_render_witness :
    (renderJoinClause .select (some (mkClause .select))
        (SqlClause.mk .join "" [] "o.uid=?" [9] "o"
          ((selectStmt ["id"] "ord" (some ⟨"", [], some .postgres⟩)).whereAppend
            "uid=?" [5])) .postgres .dollar 1 =
      .ok ("JOIN (SELECT id FROM ord WHERE uid=$1) o ON o.uid=$2", 2)) ∧
    (replacePlaceholders "o.uid=?" 2 .dollar).1 = "o.uid=$2" := by
  constructor
  · have h := c2_join_render.1 .select (mkClause .select)
      (SqlClause.mk .join "" [] "o.uid=?" [9] "o"
        ((selectStmt ["id"] "ord" (some ⟨"", [], some .postgres⟩)).whereAppend
          "uid=?" [5])) .postgres .dollar 1 "SELECT id FROM ord WHERE uid=$1" 1
      rfl (by decide) (by rfl) (by rfl)
    exact h.trans (by rfl)
  · have h := c2_join_render.2 "o.uid=?" 2 .dollar "o.uid=".data []
      (by decide) (by decide)
    exact h.trans (by rfl)

/-- C7 counterexample: a statement whose JOIN clause is immediately preceded
by a DESC clause — a predecessor that is neither SELECT nor another JOIN —
renders successfully, refuting the claim that rendering succeeds at a JOIN
only when the predecessor is SELECT or another JOIN. -/
theorem c7_join_predecessor_counterexample :
    joinAfterDescStmt.clauses.kinds =
      [.select, .orderBy, .desc, .join] ∧
    joinAfterDescStmt.Write =
      .ok "SELECT id FROM user ORDER BY id DESC JOIN (SELECT x FROM t2) a ON 1=1;" ∧
    ClauseType.desc ≠ ClauseType.select ∧
    ClauseType.desc ≠ ClauseType.join :=
  ⟨rfl, rfl, by decide, by decide⟩

/-- C7 (amended): rendering succeeds at a JOIN clause only when the
statement's leading clause kind is SELECT, the JOIN is not the first clause,
its immediate predecessor is not one of WHERE/ORDER BY/LIMIT/OFFSET/RETURNING
(any other predecessor, e.g. DESC or COALESCE, is accepted), and the nested
statement is non-empty with a SELECT leading clause or a DML leading clause
on a RETURNING-carrying statement; every placement violation produces the
misplaced-clause failure naming `JOIN`. -/
theorem c7_join_validation :
    (∀ (leading : ClauseType) (prev : Option SqlClause) (c : SqlClause)
        (driver : Driver) (renderer : Renderer) (argPosition : Int)
        (out : String × Int),
        renderJoinClause leading prev c driver renderer argPosition = .ok out →
        joinPlacementOK leading prev c) ∧
    (∀ (leading : ClauseType) (prev : Option SqlClause) (c : SqlClause)
        (driver : Driver) (renderer : Renderer) (argPosition : Int),
        ¬ joinPlacementOK leading prev c →
        renderJoinClause leading prev c driver renderer argPosition =
          .error (.misplacedClause "JOIN")) := by
  have hb : ∀ (leading : ClauseType) (prev : Option SqlClause) (c : SqlClause)
      (driver : Driver) (renderer : Renderer) (argPosition : Int),
      ¬ joinPlacementOK leading prev c →
      renderJoinClause leading prev c driver renderer argPosition =
        .error (.misplacedClause "JOIN") := by
    intro leading prev c driver renderer argPosition hbad
    cases c with
    | mk t tn cols e args idf js =>
      simp only [renderJoinClause, ClauseType.name]
      split
      · rfl
      · rename_i hlead
        have hl : leading = ClauseType.select := not_not.mp hlead
        split
        · rfl
        · rename_i optv pc
          split
          · rfl
          · rename_i hpc
            split
            · rfl
            · rename_i nc ntail hcl
              split
              · rfl
              · rename_i hleadok
                exfalso
                apply hbad
                refine ⟨hl, ⟨pc, rfl, hpc⟩, ?_⟩
                simp only [SqlClause.joinStatement, joinNestedLeadOK, hcl]
                rw [hcl] at hleadok
                simpa using hleadok
  constructor
  · intro leading prev c driver renderer argPosition out hok
    by_contra hbad
    rw [hb leading prev c driver renderer argPosition hbad] at hok
    simp at hok
  · exact hb

/-- Witness for C7: the validation characterisation applied at a concrete
accepted placement (DESC predecessor) and at a concrete violation (ORDER BY
leading clause). -/
theorem c7_join_validation_witness :
    joinPlacementOK .select (some (mkClause .desc))
      (SqlClause.mk .join "" [] "1=1" [] "a" (selectStmt ["x"] "t2" none)) ∧
    renderJoinClause .orderBy (some (mkClause .select)) (mkClause .join)
      .sqlite .question 1 = .error (.misplacedClause "JOIN") := by
  constructor
  · exact c7_join_validation.1 .select (some (mkClause .desc))
      (SqlClause.mk .join "" [] "1=1" [] "a" (selectStmt ["x"] "t2" none))
      .sqlite .question 1 ("JOIN (SELECT x FROM t2) a ON 1=1", 0) (by rfl)
  · exact c7_join_validation.2 .orderBy (some (mkClause .select)) (mkClause .join)
      .sqlite .question 1 (fun hpl => absurd hpl.1 (by decide))

theorem strMk_data (s : String) : (⟨s.data⟩ : String) = s := by
  cases s
  rfl

theorem countQMarks_append (a b : String) :
    countQMarks (a ++ b) = countQMarks a + countQMarks b := by
  simp [countQMarks, String.data_append, List.count_append]

theorem sumMarks_nil : sumMarks [] = 0 := rfl

theorem sumMarks_cons (p : String) (ps : List String) :
    sumMarks (p :: ps) = countQMarks p + sumMarks ps := by
  simp [sumMarks]

theorem sumMarks_concat (ps : List String) (p : String) :
    sumMarks (ps ++ [p]) = sumMarks ps + countQMarks p := by
  simp [sumMarks]

/-- Joining fragments with a marker-free separator preserves the total marker
count. -/
theorem countQMarks_strJoin (sep : String) (l : List String)
    (h : countQMarks sep = 0) :
    countQMarks (strJoin sep l) = sumMarks l := by
  induction l with
  | nil => simp [strJoin, sumMarks, countQMarks]
  | cons s rest ih =>
    cases rest with
    | nil => simp [strJoin, sumMarks]
    | cons s2 rest2 =>
      rw [show strJoin sep (s :: s2 :: rest2) =
            s ++ sep ++ strJoin sep (s2 :: rest2) from rfl]
      rw [countQMarks_append, countQMarks_append, h, ih]
      simp [sumMarks]

theorem sumMarks_all_noQ (l : List String) (h : l.all noQ = true) :
    sumMarks l = 0 := by
  induction l with
  | nil => rfl
  | cons s rest ih =>
    simp only [List.all_cons, Bool.and_eq_true] at h
    have h1 : countQMarks s = 0 := by
      have := h.1
      simpa [noQ] using this
    rw [sumMarks_cons, h1, ih h.2]

theorem countQMarks_strJoin_noQ (l : List String) (h : l.all noQ = true) :
    countQMarks (strJoin ", " l) = 0 := by
  rw [countQMarks_strJoin _ _ (by decide), sumMarks_all_noQ l h]

theorem countQMarks_qMarksJoin (n : Nat) :
    countQMarks (strJoin ", " (qMarksList n)) = n := by
  rw [countQMarks_strJoin _ _ (by decide)]
  induction n with
  | zero => rfl
  | succ m ih =>
    rw [show qMarksList (m + 1) = "?" :: qMarksList m from rfl, sumMarks_cons, ih]
    have h1 : countQMarks "?" = 1 := by decide
    omega

theorem countQMarks_take_drop (s : String) (n : Nat) :
    countQMarks (strTake s n) + countQMarks (strDrop s n) = countQMarks s := by
  simp only [countQMarks, strTake, strDrop]
  rw [← List.count_append, List.take_append_drop]

theorem qmark_cons_str (rest : List Char) :
    ("?" ++ (⟨rest⟩ : String)) = (⟨'?' :: rest⟩ : String) := rfl

theorem singleton_cons_str (ch : Char) (rest : List Char) :
    (String.singleton ch ++ (⟨rest⟩ : String)) = (⟨ch :: rest⟩ : String) := rfl

/-- The placeholder-substitution walk under the question renderer rebuilds the
input unchanged. -/
theorem replacePlaceholdersAux_question (p : Int) (l : List Char) (k : Int) :
    replacePlaceholdersAux .question p l k = (⟨l⟩, k + (l.count '?' : Int)) := by
  induction l generalizing k with
  | nil => simp [replacePlaceholdersAux]
  | cons ch rest ih =>
    by_cases h : ch = '?'
    · subst h
      simp only [replacePlaceholdersAux, if_pos, ih, Renderer.placeholder,
        qmark_cons_str, Prod.mk.injEq, List.count_cons_self, ite_true]
      refine ⟨trivial, by push_cast; ring⟩
    · have hb : ((ch : Char) == '?') = false := by simp [h]
      simp only [replacePlaceholdersAux, if_neg h, ih, singleton_cons_str,
        Prod.mk.injEq, List.count_cons, hb, if_false]
      refine ⟨trivial, by push_cast; ring⟩

/-- The `replacePlaceholders` under the question renderer returns the expression
unchanged together with its marker count. -/
theorem replacePlaceholders_question (e : String) (p : Int) :
    replacePlaceholders e p .question = (e, (countQMarks e : Int)) := by
  simp only [replacePlaceholders, replacePlaceholdersAux_question, strMk_data,
    countQMarks]
  by_cases h : e.data.count '?' = 0
  · simp [h]
  · simp [h]

/-- Question-renderer placeholders are position-independent. -/
theorem question_phs (pos : Int) (m : Nat) :
    (List.range m).map
        (fun (j : Nat) => Renderer.placeholder .question (pos + (j : Int))) =
      qMarksList m := by
  rw [show (fun (j : Nat) => Renderer.placeholder .question (pos + (j : Int))) =
        (fun (_ : Nat) => "?") from rfl]
  rw [List.map_const']
  simp [qMarksList]

/-- The `writeClause` renders an INSERT clause under the question renderer as
`insertFragQ`, consuming one placeholder per column. -/
theorem writeClause_insert_question (c : SqlClause) (pos : Int)
    (hc : c.ctype = .insert) :
    writeClause c pos .question =
      .ok (insertFragQ c, (c.columnNames.length : Int)) := by
  cases c with
  | mk t tn cols e args idf js =>
    simp only [SqlClause.ctype] at hc
    subst hc
    simp only [writeClause, SqlClause.ctype, SqlClause.columnNames,
      SqlClause.tableName]
    rw [question_phs]
    simp only [Except.ok.injEq, Prod.mk.injEq]
    constructor
    · apply String.ext
      simp only [insertFragQ, insertPrefix, SqlClause.tableName,
        SqlClause.columnNames, String.data_append, List.append_assoc]
      rfl
    · simp [qMarksList]

/-- The `writeClause` renders an UPDATE clause under the question renderer as
`updateFragQ`, consuming one placeholder per SET column. -/
theorem writeClause_update_question (c : SqlClause) (pos : Int)
    (hc : c.ctype = .update) :
    writeClause c pos .question =
      .ok (updateFragQ c, (c.columnNames.length : Int)) := by
  cases c with
  | mk t tn cols e args idf js =>
    simp only [SqlClause.ctype] at hc
    subst hc
    simp only [writeClause, SqlClause.ctype, SqlClause.columnNames,
      SqlClause.tableName, Renderer.placeholder]
    have hsnd : ((List.range cols.length).zip cols).map Prod.snd = cols :=
      List.map_snd_zip _ _ (by simp)
    have hassign : ((List.range cols.length).zip cols).map
        (fun p => p.2 ++ "=" ++ "?") = cols.map (fun col => col ++ "=" ++ "?") := by
      have h2 : cols.map (fun col => col ++ "=" ++ "?") =
          (((List.range cols.length).zip cols).map Prod.snd).map
            (fun col => col ++ "=" ++ "?") := by rw [hsnd]
      rw [h2, List.map_map]
      rfl
    rw [hassign]
    simp only [updateFragQ, SqlClause.tableName, SqlClause.columnNames,
      Except.ok.injEq, Prod.mk.injEq]
    refine ⟨trivial, by simp⟩

/-- Marker count of the pieces `col=?` of an UPDATE SET list. -/
theorem sumMarks_assign_pieces (cols : List String) (h : cols.all noQ = true) :
    sumMarks (cols.map (fun col => col ++ "=" ++ "?")) = cols.length := by
  induction cols with
  | nil => rfl
  | cons col rest ih =>
    simp only [List.all_cons, Bool.and_eq_true] at h
    have h1 : countQMarks col = 0 := by simpa [noQ] using h.1
    rw [List.map_cons, sumMarks_cons, countQMarks_append, countQMarks_append, h1,
      ih h.2]
    have h2 : countQMarks "=" = 0 := by decide
    have h3 : countQMarks "?" = 1 := by decide
    simp [h2, h3]
    omega

theorem countQMarks_insertPrefix (c : SqlClause)
    (h1 : noQ c.tableName = true) (h2 : c.columnNames.all noQ = true) :
    countQMarks (insertPrefix c) = 0 := by
  have htn : countQMarks c.tableName = 0 := by simpa [noQ] using h1
  have hjoin := countQMarks_strJoin_noQ _ h2
  simp only [insertPrefix, countQMarks_append, htn, hjoin]
  decide

theorem countQMarks_insertFragQ (c : SqlClause)
    (h1 : noQ c.tableName = true) (h2 : c.columnNames.all noQ = true) :
    countQMarks (insertFragQ c) = c.columnNames.length := by
  have hpre := countQMarks_insertPrefix c h1 h2
  simp only [insertFragQ, countQMarks_append, hpre, countQMarks_qMarksJoin]
  have l1 : countQMarks " VALUES (" = 0 := by decide
  have l2 : countQMarks ")" = 0 := by decide
  omega

theorem countQMarks_updateFragQ (c : SqlClause)
    (h1 : noQ c.tableName = true) (h2 : c.columnNames.all noQ = true) :
    countQMarks (updateFragQ c) = c.columnNames.length := by
  have htn : countQMarks c.tableName = 0 := by simpa [noQ] using h1
  have hj : countQMarks
      (strJoin ", " (c.columnNames.map (fun col => col ++ "=" ++ "?"))) =
        c.columnNames.length := by
    rw [countQMarks_strJoin _ _ (by decide), sumMarks_assign_pieces _ h2]
  simp only [updateFragQ, countQMarks_append, htn, hj]
  have l1 : countQMarks "UPDATE " = 0 := by decide
  have l2 : countQMarks " SET " = 0 := by decide
  omega

/-- Taking the column-list boundary of the rendered INSERT fragment recovers
exactly its prefix. -/
theorem strTake_insertFragQ (c : SqlClause) :
    strTake (insertFragQ c) (insertPrefix c).data.length = insertPrefix c := by
  have hdata : (insertFragQ c).data = (insertPrefix c).data ++
      (" VALUES (" ++ strJoin ", " (qMarksList c.columnNames.length) ++ ")").data := by
    simp [insertFragQ, String.data_append, List.append_assoc]
  rw [strTake, hdata, List.take_left]

theorem pendingOf_zero_nil (prev : Option SqlClause)
    (hf : followPrev prev .nil = true) : pendingOf prev = 0 := by
  cases prev with
  | none => rfl
  | some pc =>
    cases pc with
    | mk t tn cols e args idf js =>
      cases t <;> simp_all [followPrev, pendingOf, SqlClause.ctype]

theorem pendingOf_zero_of_head_ne_values (prev : Option SqlClause)
    (c : SqlClause) (rest : Clauses)
    (hf : followPrev prev (.cons c rest) = true) (hc : c.ctype ≠ .values) :
    pendingOf prev = 0 := by
  cases prev with
  | none => rfl
  | some pc =>
    cases pc with
    | mk t tn cols e args idf js =>
      cases t <;> simp_all [followPrev, pendingOf, SqlClause.ctype, beq_iff_eq]

/-- One loop step through the generic `driver.Write`-and-append path (every
clause kind except VALUES, JOIN and COALESCE). -/
theorem renderLoop_step_write (leading : ClauseType) (prev : Option SqlClause)
    (parts : List String) (pos used : Int) (c : SqlClause) (rest : Clauses)
    (p : String) (u : Int)
    (hv : c.ctype ≠ .values) (hj : c.ctype ≠ .join) (hco : c.ctype ≠ .coalesce)
    (hg1 : ¬((c.ctype = .desc ∨ c.ctype = .asc) ∧ prevType prev ≠ some .orderBy))
    (hg2 : ¬(c.ctype = .returning ∧
      ¬(leading = .insert ∨ leading = .update ∨ leading = .delete)))
    (hw : Driver.write .sqlite c pos = .ok (p, u)) :
    renderLoop .sqlite .question leading prev parts pos used (.cons c rest) =
      renderLoop .sqlite .question leading (some c) (parts ++ [p]) (pos + u)
        (used + u) rest := by
  simp only [renderLoop, if_neg hg1, if_neg hg2, if_neg hv, if_neg hj, hw]
  rw [if_neg hco]

/-- One loop step through the VALUES-after-INSERT splice. -/
theorem renderLoop_step_values_insert (leading : ClauseType) (pc c : SqlClause)
    (parts : List String) (frag : String) (pos used : Int) (rest : Clauses)
    (idx : Nat) (hpc : pc.ctype = .insert) (hc : c.ctype = .values)
    (hidx : strIndex frag " VALUES " = some idx) :
    renderLoop .sqlite .question leading (some pc) (parts ++ [frag]) pos used
        (.cons c rest) =
      renderLoop .sqlite .question leading (some c)
        (parts ++ [strTake frag idx ++ " VALUES (" ++
          strJoin ", " (qMarksList c.args.length) ++ ")"])
        (pos - (pc.columnNames.length : Int) + (c.args.length : Int))
        (used - (pc.columnNames.length : Int) + (c.args.length : Int)) rest := by
  simp only [renderLoop, hc, hpc, hidx]
  rw [← question_phs (pos - (pc.columnNames.length : Int)) c.args.length]
  simp [renderLoop, hc, hpc, hidx, updateLast]

/-- One loop step through the VALUES-after-UPDATE pass-through. -/
theorem renderLoop_step_values_update (leading : ClauseType) (pc c : SqlClause)
    (parts : List String) (pos used : Int) (rest : Clauses)
    (hpc : pc.ctype = .update) (hc : c.ctype = .values) :
    renderLoop .sqlite .question leading (some pc) parts pos used (.cons c rest) =
      renderLoop .sqlite .question leading (some c) parts pos used rest := by
  simp [renderLoop, hc, hpc]

/-- One loop step through the COALESCE splice. -/
theorem renderLoop_step_coalesce (leading : ClauseType) (pc c : SqlClause)
    (parts : List String) (sel : String) (pos used : Int) (rest : Clauses)
    (idx : Nat) (hc : c.ctype = .coalesce) (hlen : 2 ≤ c.columnNames.length)
    (hpc : pc.ctype = .select) (hsel : strIndex sel " FROM " = some idx) :
    renderLoop .sqlite .question leading (some pc) (parts ++ [sel]) pos used
        (.cons c rest) =
      renderLoop .sqlite .question leading (some c)
        (parts ++ [strTake sel idx ++ ", " ++
          ("COALESCE(" ++ strJoin ", " c.columnNames ++ ")") ++ strDrop sel idx])
        pos used rest := by
  have hw := write_coalesce_ok .sqlite c pos hc hlen
  have hprev : prevType (some pc) = some ClauseType.select := by
    simp [prevType, hpc]
  simp [renderLoop, hc, hw, hprev, hsel, updateLast]

theorem pendingOf_some_zero (c : SqlClause) (hi : c.ctype ≠ .insert)
    (hu : c.ctype ≠ .update) : pendingOf (some c) = 0 := by
  cases c with
  | mk t tn cols e args idf js =>
    cases t <;> simp_all [pendingOf, SqlClause.ctype]

theorem argsOf_ne_join (c : SqlClause) (hj : c.ctype ≠ .join) :
    SqlClause.argsOf c = c.args := by
  cases c with
  | mk t tn cols e args idf js =>
    cases t <;> simp_all [SqlClause.argsOf, SqlClause.ctype, SqlClause.args]

theorem argsOf_join (c : SqlClause) (hj : c.ctype = .join) :
    SqlClause.argsOf c = c.joinStatement.argsList ++ c.args := by
  cases c with
  | mk t tn cols e args idf js =>
    simp_all [SqlClause.argsOf, SqlClause.ctype, SqlClause.args,
      SqlClause.joinStatement]

theorem argsList_cons (c : SqlClause) (rest : Clauses) :
    Clauses.argsList (.cons c rest) =
      SqlClause.argsOf c ++ Clauses.argsList rest := by
  simp [Clauses.argsList]

theorem sizeOf_tail_lt (c : SqlClause) (rest : Clauses) :
    sizeOf rest < sizeOf (Clauses.cons c rest) := by
  simp only [Clauses.cons.sizeOf_spec]
  omega

/-- The shared argument for every clause kind that flows through the generic
`driver.Write`-and-append path. -/
theorem parity_step_append (n : Nat) (ih : ∀ m, m < n → ParityStmt m)
    (leading : ClauseType) (prev : Option SqlClause) (c : SqlClause)
    (rest : Clauses) (parts parts' : List String) (pos used used' : Int)
    (p : String) (u : Int)
    (hsz : sizeOf (Clauses.cons c rest) ≤ n)
    (_hwfc : wfClauseSelf c = true)
    (hfol : followPrev (some c) rest = true)
    (hwfrest : wfClauses rest = true)
    (hfollow : followPrev prev (.cons c rest) = true)
    (hi : c.ctype ≠ .insert) (hu2 : c.ctype ≠ .update)
    (hv : c.ctype ≠ .values) (hj : c.ctype ≠ .join) (hco : c.ctype ≠ .coalesce)
    (hg1 : ¬((c.ctype = .desc ∨ c.ctype = .asc) ∧ prevType prev ≠ some .orderBy))
    (hg2 : ¬(c.ctype = .returning ∧
      ¬(leading = .insert ∨ leading = .update ∨ leading = .delete)))
    (hw : Driver.write .sqlite c pos = .ok (p, u))
    (hmarks : countQMarks p = c.args.length)
    (hok : renderLoop .sqlite .question leading prev parts pos used
      (.cons c rest) = .ok (parts', used')) :
    sumMarks parts' + pendingOf prev =
      sumMarks parts + (Clauses.argsList (.cons c rest)).length := by
  rw [renderLoop_step_write leading prev parts pos used c rest p u hv hj hco
    hg1 hg2 hw] at hok
  have hszr : sizeOf rest < n :=
    Nat.lt_of_lt_of_le (sizeOf_tail_lt c rest) hsz
  have hrec := ih (sizeOf rest) hszr rest leading (some c) (parts ++ [p]) parts'
    (pos + u) (used + u) used' (Nat.le_refl _) hwfrest hfol
    (by
      intro pc hpc hins
      cases hpc
      exact absurd hins hi) hok
  rw [pendingOf_some_zero c hi hu2] at hrec
  rw [sumMarks_concat] at hrec
  rw [pendingOf_zero_of_head_ne_values prev c rest hfollow hv]
  rw [argsList_cons, List.length_append, argsOf_ne_join c hj]
  omega

theorem list_isEmpty_eq_nil {α : Type} (l : List α) (h : l.isEmpty = true) :
    l = [] := by
  cases l with
  | nil => rfl
  | cons a t => simp [List.isEmpty] at h

theorem getD_question (d : Option Driver) (h : driverIsQuestion d = true) :
    d.getD Driver.sqlite = Driver.sqlite := by
  cases d with
  | none => rfl
  | some dr =>
    cases dr with
    | sqlite => rfl
    | postgres => simp [driverIsQuestion] at h

theorem stmt_argsList_mk (ncls : Clauses) (nd : Option Driver) :
    SQLStatement.argsList (.mk ncls nd) = Clauses.argsList ncls := by
  simp [SQLStatement.argsList]

/-- A JOIN fragment accepted by `renderJoinClause` on the question dialect
carries exactly one `?` mark per argument the JOIN clause contributes to
`Args()` (nested statement arguments plus ON arguments), assuming the nested
statement satisfies the argument-matching discipline. -/
theorem renderJoinClause_marks (n : Nat) (ih : ∀ m, m < n → ParityStmt m)
    (leading : ClauseType) (prev : Option SqlClause) (c : SqlClause) (pos : Int)
    (joinSQL : String) (used : Int) (hszc : sizeOf c ≤ n)
    (hwfc : wfClauseSelf c = true) (hcj : c.ctype = .join)
    (hjok : renderJoinClause leading prev c .sqlite .question pos =
      .ok (joinSQL, used)) :
    countQMarks joinSQL = (SqlClause.argsOf c).length := by
  cases c with
  | mk t tn cols e args idf js =>
    simp only [SqlClause.ctype] at hcj
    subst hcj
    simp only [wfClauseSelf, Bool.and_eq_true] at hwfc
    obtain ⟨⟨heq, hidfQ⟩, hwfjs⟩ := hwfc
    have hexpr : countQMarks e = args.length := by simpa [beq_iff_eq] using heq
    cases js with
    | mk ncls nd =>
      simp only [wfStmt, Bool.and_eq_true] at hwfjs
      obtain ⟨hdq, hwfn⟩ := hwfjs
      have hnd : nd.getD Driver.sqlite = Driver.sqlite := getD_question nd hdq
      simp only [renderJoinClause, SQLStatement.clauses, SQLStatement.driver,
        hnd, rendererForDriver] at hjok
      split at hjok
      · simp at hjok
      · split at hjok
        · simp at hjok
        · rename_i optv pc
          split at hjok
          · simp at hjok
          · split at hjok
            · simp at hjok
            · rename_i oldv nc ntail
              split at hjok
              · simp at hjok
              · split at hjok
                · simp at hjok
                · rename_i innerSQL usedInner hinner
                  simp only [Except.ok.injEq, Prod.mk.injEq] at hjok
                  obtain ⟨hjs, -⟩ := hjok
                  subst hjs
                  -- the nested render
                  simp only [renderClauses] at hinner
                  split at hinner
                  · simp at hinner
                  · rename_i partsI usedI hloop
                    simp only [Except.ok.injEq, Prod.mk.injEq] at hinner
                    obtain ⟨hinnerSQL, husedI⟩ := hinner
                    subst hinnerSQL
                    subst husedI
                    have hszn : sizeOf (Clauses.cons nc ntail) < n := by
                      have h1 : sizeOf (Clauses.cons nc ntail) <
                          sizeOf (SqlClause.mk ClauseType.join tn cols e args idf
                            (SQLStatement.mk (Clauses.cons nc ntail) nd)) := by
                        simp only [SqlClause.mk.sizeOf_spec,
                          SQLStatement.mk.sizeOf_spec]
                        omega
                      omega
                    have hrecI := ih (sizeOf (Clauses.cons nc ntail)) hszn
                      (Clauses.cons nc ntail) (leadingOf (Clauses.cons nc ntail))
                      none [] partsI pos 0 usedI (Nat.le_refl _) hwfn rfl
                      (by intro pc' hpc' _; cases hpc') hloop
                    simp only [pendingOf, sumMarks_nil] at hrecI
                    -- marks of the assembled fragment
                    have honE := replacePlaceholders_question e (pos + usedI)
                    rw [honE]
                    have hidf0 : countQMarks idf = 0 := by simpa [noQ] using hidfQ
                    have hinnerM : countQMarks (strJoin " " partsI) =
                        sumMarks partsI := countQMarks_strJoin _ _ (by decide)
                    simp only [countQMarks_append, hinnerM, hidf0, hexpr]
                    rw [argsOf_join _ (by simp [SqlClause.ctype])]
                    simp only [SqlClause.joinStatement, SqlClause.args,
                      stmt_argsList_mk, List.length_append]
                    have l1 : countQMarks "JOIN (" = 0 := by decide
                    have l2 : countQMarks ") " = 0 := by decide
                    have l3 : countQMarks " ON " = 0 := by decide
                    omega

/-- A COALESCE clause with enough arguments reduces the loop to the splice
conditional (write succeeds, the position advances by zero). -/
theorem renderLoop_coalesce_reaches (leading : ClauseType)
    (prev : Option SqlClause) (parts : List String) (pos used : Int)
    (c : SqlClause) (rest : Clauses) (hc : c.ctype = .coalesce)
    (hlen : 2 ≤ c.columnNames.length) :
    renderLoop .sqlite .question leading prev parts pos used (.cons c rest) =
      if prevType prev ≠ some .select then
        .error (.misplacedClause "COALESCE")
      else
        match parts.getLast? with
        | none => .error .malformedSelect
        | some sel =>
          match strIndex sel " FROM " with
          | none => .error .malformedSelect
          | some idx =>
            renderLoop .sqlite .question leading (some c)
              (updateLast parts (strTake sel idx ++ ", " ++
                ("COALESCE(" ++ strJoin ", " c.columnNames ++ ")") ++
                strDrop sel idx)) (pos + 0) (used + 0) rest := by
  have hw := write_coalesce_ok .sqlite c pos hc hlen
  by_cases hpt : prevType prev = some ClauseType.select
  · simp [renderLoop, hc, hw, hpt, ClauseType.name]
  · simp [renderLoop, hc, hw, hpt, ClauseType.name]

/-- The placeholder/argument parity invariant holds for every recursion
budget: a successful `renderLoop` pass on the question dialect under the
argument-matching discipline adds one `?` mark per contributed argument. -/
theorem renderLoop_parity : ∀ n : Nat, ParityStmt n := by
  intro n
  induction n using Nat.strong_induction_on with
  | _ n ih =>
  intro cls leading prev parts parts' argPosition usedTotal used' hsz hwf hfollow
    hprevOK hok
  cases cls with
  | nil =>
    simp only [renderLoop, Except.ok.injEq, Prod.mk.injEq] at hok
    obtain ⟨h1, -⟩ := hok
    rw [pendingOf_zero_nil prev hfollow, ← h1]
    simp [Clauses.argsList]
  | cons c rest =>
    have hszr : sizeOf rest < n := Nat.lt_of_lt_of_le (sizeOf_tail_lt c rest) hsz
    simp only [wfClauses, Bool.and_eq_true] at hwf
    obtain ⟨⟨hwfc, hfol⟩, hwfrest⟩ := hwf
    cases c with
    | mk t tn cols e args idf js =>
    cases t with
    | select =>
      have hwfx := hwfc
      simp only [wfClauseSelf, Bool.and_eq_true] at hwfx
      obtain ⟨⟨hargsE, htnQ⟩, hcolsQ⟩ := hwfx
      have hargsN : args = [] := list_isEmpty_eq_nil _ hargsE
      refine parity_step_append n ih leading prev
        (SqlClause.mk .select tn cols e args idf js) rest parts parts'
        argPosition usedTotal used'
        ("SELECT " ++ strJoin ", " cols ++ " FROM " ++ tn) 0 hsz hwfc hfol
        hwfrest hfollow
        (by simp [SqlClause.ctype]) (by simp [SqlClause.ctype])
        (by simp [SqlClause.ctype]) (by simp [SqlClause.ctype])
        (by simp [SqlClause.ctype]) (by simp [SqlClause.ctype])
        (by simp [SqlClause.ctype]) ?_ ?_ hok
      · simp [Driver.write, writeClause, SqlClause.ctype, SqlClause.columnNames,
          SqlClause.tableName]
      · have h1 : countQMarks tn = 0 := by simpa [noQ] using htnQ
        have h2 := countQMarks_strJoin_noQ _ hcolsQ
        simp only [countQMarks_append, h1, h2, SqlClause.args, hargsN]
        decide
    | delete =>
      have hwfx := hwfc
      simp only [wfClauseSelf, Bool.and_eq_true] at hwfx
      obtain ⟨hargsE, htnQ⟩ := hwfx
      have hargsN : args = [] := list_isEmpty_eq_nil _ hargsE
      refine parity_step_append n ih leading prev
        (SqlClause.mk .delete tn cols e args idf js) rest parts parts'
        argPosition usedTotal used' ("DELETE FROM " ++ tn) 0 hsz hwfc hfol
        hwfrest hfollow
        (by simp [SqlClause.ctype]) (by simp [SqlClause.ctype])
        (by simp [SqlClause.ctype]) (by simp [SqlClause.ctype])
        (by simp [SqlClause.ctype]) (by simp [SqlClause.ctype])
        (by simp [SqlClause.ctype]) ?_ ?_ hok
      · simp [Driver.write, writeClause, SqlClause.ctype, SqlClause.tableName]
      · have h1 : countQMarks tn = 0 := by simpa [noQ] using htnQ
        simp only [countQMarks_append, h1, SqlClause.args, hargsN]
        decide
    | whereClause =>
      have hwfx := hwfc
      simp only [wfClauseSelf] at hwfx
      have hexpr : countQMarks e = args.length := by simpa [beq_iff_eq] using hwfx
      refine parity_step_append n ih leading prev
        (SqlClause.mk .whereClause tn cols e args idf js) rest parts parts'
        argPosition usedTotal used' ("WHERE " ++ e) (countQMarks e : Int) hsz
        hwfc hfol hwfrest hfollow
        (by simp [SqlClause.ctype]) (by simp [SqlClause.ctype])
        (by simp [SqlClause.ctype]) (by simp [SqlClause.ctype])
        (by simp [SqlClause.ctype]) (by simp [SqlClause.ctype])
        (by simp [SqlClause.ctype]) ?_ ?_ hok
      · simp [Driver.write, writeClause, SqlClause.ctype, SqlClause.expr,
          replacePlaceholders_question]
      · have l1 : countQMarks "WHERE " = 0 := by decide
        simp only [countQMarks_append, l1, SqlClause.args, hexpr]
        omega
    | orderBy =>
      have hwfx := hwfc
      simp only [wfClauseSelf, Bool.and_eq_true] at hwfx
      obtain ⟨hargsE, hcolsQ⟩ := hwfx
      have hargsN : args = [] := list_isEmpty_eq_nil _ hargsE
      refine parity_step_append n ih leading prev
        (SqlClause.mk .orderBy tn cols e args idf js) rest parts parts'
        argPosition usedTotal used' ("ORDER BY " ++ strJoin ", " cols) 0 hsz
        hwfc hfol hwfrest hfollow
        (by simp [SqlClause.ctype]) (by simp [SqlClause.ctype])
        (by simp [SqlClause.ctype]) (by simp [SqlClause.ctype])
        (by simp [SqlClause.ctype]) (by simp [SqlClause.ctype])
        (by simp [SqlClause.ctype]) ?_ ?_ hok
      · simp [Driver.write, writeClause, SqlClause.ctype, SqlClause.columnNames]
      · have h2 := countQMarks_strJoin_noQ _ hcolsQ
        simp only [countQMarks_append, h2, SqlClause.args, hargsN]
        decide
    | limit =>
      have hwfx := hwfc
      simp only [wfClauseSelf] at hwfx
      have hlen : args.length = 1 := by simpa [beq_iff_eq] using hwfx
      refine parity_step_append n ih leading prev
        (SqlClause.mk .limit tn cols e args idf js) rest parts parts'
        argPosition usedTotal used' ("LIMIT " ++ "?") 1 hsz hwfc hfol hwfrest
        hfollow
        (by simp [SqlClause.ctype]) (by simp [SqlClause.ctype])
        (by simp [SqlClause.ctype]) (by simp [SqlClause.ctype])
        (by simp [SqlClause.ctype]) (by simp [SqlClause.ctype])
        (by simp [SqlClause.ctype]) ?_ ?_ hok
      · simp [Driver.write, writeClause, SqlClause.ctype, Renderer.placeholder]
      · simp only [SqlClause.args, hlen]
        decide
    | offset =>
      have hwfx := hwfc
      simp only [wfClauseSelf] at hwfx
      have hlen : args.length = 1 := by simpa [beq_iff_eq] using hwfx
      refine parity_step_append n ih leading prev
        (SqlClause.mk .offset tn cols e args idf js) rest parts parts'
        argPosition usedTotal used' ("OFFSET " ++ "?") 1 hsz hwfc hfol hwfrest
        hfollow
        (by simp [SqlClause.ctype]) (by simp [SqlClause.ctype])
        (by simp [SqlClause.ctype]) (by simp [SqlClause.ctype])
        (by simp [SqlClause.ctype]) (by simp [SqlClause.ctype])
        (by simp [SqlClause.ctype]) ?_ ?_ hok
      · simp [Driver.write, writeClause, SqlClause.ctype, Renderer.placeholder]
      · simp only [SqlClause.args, hlen]
        decide
    | desc =>
      have hwfx := hwfc
      simp only [wfClauseSelf] at hwfx
      have hargsN : args = [] := list_isEmpty_eq_nil _ hwfx
      by_cases hpt : prevType prev = some ClauseType.orderBy
      · refine parity_step_append n ih leading prev
          (SqlClause.mk .desc tn cols e args idf js) rest parts parts'
          argPosition usedTotal used' "DESC" 0 hsz hwfc hfol hwfrest hfollow
          (by simp [SqlClause.ctype]) (by simp [SqlClause.ctype])
          (by simp [SqlClause.ctype]) (by simp [SqlClause.ctype])
          (by simp [SqlClause.ctype]) (by simp [hpt])
          (by simp [SqlClause.ctype]) ?_ ?_ hok
        · simp [Driver.write, writeClause, SqlClause.ctype]
        · simp only [SqlClause.args, hargsN]
          decide
      · have hcond : ((SqlClause.mk ClauseType.desc tn cols e args idf js).ctype =
            ClauseType.desc ∨
            (SqlClause.mk ClauseType.desc tn cols e args idf js).ctype =
            ClauseType.asc) ∧ prevType prev ≠ some ClauseType.orderBy :=
          ⟨Or.inl rfl, hpt⟩
        simp only [renderLoop, if_pos hcond] at hok
        exact absurd hok (by simp)
    | asc =>
      have hwfx := hwfc
      simp only [wfClauseSelf] at hwfx
      have hargsN : args = [] := list_isEmpty_eq_nil _ hwfx
      by_cases hpt : prevType prev = some ClauseType.orderBy
      · refine parity_step_append n ih leading prev
          (SqlClause.mk .asc tn cols e args idf js) rest parts parts'
          argPosition usedTotal used' "ASC" 0 hsz hwfc hfol hwfrest hfollow
          (by simp [SqlClause.ctype]) (by simp [SqlClause.ctype])
          (by simp [SqlClause.ctype]) (by simp [SqlClause.ctype])
          (by simp [SqlClause.ctype]) (by simp [hpt])
          (by simp [SqlClause.ctype]) ?_ ?_ hok
        · simp [Driver.write, writeClause, SqlClause.ctype]
        · simp only [SqlClause.args, hargsN]
          decide
      · have hcond : ((SqlClause.mk ClauseType.asc tn cols e args idf js).ctype =
            ClauseType.desc ∨
            (SqlClause.mk ClauseType.asc tn cols e args idf js).ctype =
            ClauseType.asc) ∧ prevType prev ≠ some ClauseType.orderBy :=
          ⟨Or.inr rfl, hpt⟩
        simp only [renderLoop, if_pos hcond] at hok
        exact absurd hok (by simp)
    | returning =>
      have hwfx := hwfc
      simp only [wfClauseSelf, Bool.and_eq_true] at hwfx
      obtain ⟨hargsE, hcolsQ⟩ := hwfx
      have hargsN : args = [] := list_isEmpty_eq_nil _ hargsE
      by_cases hld : leading = .insert ∨ leading = .update ∨ leading = .delete
      · refine parity_step_append n ih leading prev
          (SqlClause.mk .returning tn cols e args idf js) rest parts parts'
          argPosition usedTotal used'
          ("RETURNING " ++ (if cols.isEmpty = true then "*"
            else strJoin ", " cols)) 0 hsz hwfc hfol hwfrest hfollow
          (by simp [SqlClause.ctype]) (by simp [SqlClause.ctype])
          (by simp [SqlClause.ctype]) (by simp [SqlClause.ctype])
          (by simp [SqlClause.ctype]) (by simp [SqlClause.ctype])
          (fun h => h.2 hld) ?_ ?_ hok
        · simp [Driver.write, writeClause, SqlClause.ctype, SqlClause.columnNames]
        · have l0 : countQMarks "RETURNING " = 0 := by decide
          have l1 : countQMarks "*" = 0 := by decide
          have h2 := countQMarks_strJoin_noQ _ hcolsQ
          by_cases hce : cols.isEmpty = true
          · simp [hce, countQMarks_append, SqlClause.args, hargsN, l0, l1]
            decide
          · simp [hce, countQMarks_append, SqlClause.args, hargsN, l0, h2]
      · have hcond : (SqlClause.mk ClauseType.returning tn cols e args idf
            js).ctype = ClauseType.returning ∧
            ¬(leading = .insert ∨ leading = .update ∨ leading = .delete) :=
          ⟨rfl, hld⟩
        simp only [renderLoop] at hok
        rw [if_neg (by simp [SqlClause.ctype]), if_pos hcond] at hok
        exact absurd hok (by simp)
    | insert =>
      have hwfx := hwfc
      simp only [wfClauseSelf, Bool.and_eq_true] at hwfx
      obtain ⟨⟨⟨hargsE, htnQ⟩, hcolsQ⟩, hidxB⟩ := hwfx
      have hargsN : args = [] := list_isEmpty_eq_nil _ hargsE
      have hwD : Driver.write .sqlite
          (SqlClause.mk .insert tn cols e args idf js) argPosition =
          .ok (insertFragQ (SqlClause.mk .insert tn cols e args idf js),
            (cols.length : Int)) := by
        have h := writeClause_insert_question
          (SqlClause.mk .insert tn cols e args idf js) argPosition rfl
        simpa [Driver.write, SqlClause.columnNames] using h
      rw [renderLoop_step_write leading prev parts argPosition usedTotal
        (SqlClause.mk .insert tn cols e args idf js) rest
        (insertFragQ (SqlClause.mk .insert tn cols e args idf js))
        (cols.length : Int)
        (by simp [SqlClause.ctype]) (by simp [SqlClause.ctype])
        (by simp [SqlClause.ctype]) (by simp [SqlClause.ctype])
        (by simp [SqlClause.ctype]) hwD] at hok
      have hrec := ih (sizeOf rest) hszr rest leading
        (some (SqlClause.mk .insert tn cols e args idf js))
        (parts ++ [insertFragQ (SqlClause.mk .insert tn cols e args idf js)])
        parts' (argPosition + (cols.length : Int))
        (usedTotal + (cols.length : Int)) used' (Nat.le_refl _) hwfrest hfol
        (by
          intro pc hpc hins
          cases hpc
          exact ⟨List.getLast?_concat _, hwfc⟩) hok
      have hpend : pendingOf (some (SqlClause.mk .insert tn cols e args idf
          js)) = cols.length := by
        simp [pendingOf, SqlClause.ctype, SqlClause.columnNames]
      rw [hpend, sumMarks_concat] at hrec
      have hfragM : countQMarks (insertFragQ
          (SqlClause.mk .insert tn cols e args idf js)) = cols.length := by
        have h := countQMarks_insertFragQ
          (SqlClause.mk .insert tn cols e args idf js)
          (by simpa [SqlClause.tableName] using htnQ)
          (by simpa [SqlClause.columnNames] using hcolsQ)
        simpa [SqlClause.columnNames] using h
      rw [pendingOf_zero_of_head_ne_values prev _ rest hfollow
        (by simp [SqlClause.ctype])]
      rw [argsList_cons, List.length_append,
        argsOf_ne_join _ (by simp [SqlClause.ctype])]
      simp only [SqlClause.args, hargsN, List.length_nil]
      omega
    | update =>
      have hwfx := hwfc
      simp only [wfClauseSelf, Bool.and_eq_true] at hwfx
      obtain ⟨⟨hargsE, htnQ⟩, hcolsQ⟩ := hwfx
      have hargsN : args = [] := list_isEmpty_eq_nil _ hargsE
      have hwD : Driver.write .sqlite
          (SqlClause.mk .update tn cols e args idf js) argPosition =
          .ok (updateFragQ (SqlClause.mk .update tn cols e args idf js),
            (cols.length : Int)) := by
        have h := writeClause_update_question
          (SqlClause.mk .update tn cols e args idf js) argPosition rfl
        simpa [Driver.write, SqlClause.columnNames] using h
      rw [renderLoop_step_write leading prev parts argPosition usedTotal
        (SqlClause.mk .update tn cols e args idf js) rest
        (updateFragQ (SqlClause.mk .update tn cols e args idf js))
        (cols.length : Int)
        (by simp [SqlClause.ctype]) (by simp [SqlClause.ctype])
        (by simp [SqlClause.ctype]) (by simp [SqlClause.ctype])
        (by simp [SqlClause.ctype]) hwD] at hok
      have hrec := ih (sizeOf rest) hszr rest leading
        (some (SqlClause.mk .update tn cols e args idf js))
        (parts ++ [updateFragQ (SqlClause.mk .update tn cols e args idf js)])
        parts' (argPosition + (cols.length : Int))
        (usedTotal + (cols.length : Int)) used' (Nat.le_refl _) hwfrest hfol
        (by
          intro pc hpc hins
          cases hpc
          exact absurd hins (by simp [SqlClause.ctype])) hok
      have hpend : pendingOf (some (SqlClause.mk .update tn cols e args idf
          js)) = cols.length := by
        simp [pendingOf, SqlClause.ctype, SqlClause.columnNames]
      rw [hpend, sumMarks_concat] at hrec
      have hfragM : countQMarks (updateFragQ
          (SqlClause.mk .update tn cols e args idf js)) = cols.length := by
        have h := countQMarks_updateFragQ
          (SqlClause.mk .update tn cols e args idf js)
          (by simpa [SqlClause.tableName] using htnQ)
          (by simpa [SqlClause.columnNames] using hcolsQ)
        simpa [SqlClause.columnNames] using h
      rw [pendingOf_zero_of_head_ne_values prev _ rest hfollow
        (by simp [SqlClause.ctype])]
      rw [argsList_cons, List.length_append,
        argsOf_ne_join _ (by simp [SqlClause.ctype])]
      simp only [SqlClause.args, hargsN, List.length_nil]
      omega
    | values =>
      cases prev with
      | none => simp [renderLoop, SqlClause.ctype] at hok
      | some pc =>
        by_cases hpct : pc.ctype = .insert
        · obtain ⟨hlast, hwfpc⟩ := hprevOK pc rfl hpct
          have hparts := List.dropLast_append_getLast? _ hlast
          cases pc with
          | mk t2 tn2 cols2 e2 args2 idf2 js2 =>
            simp only [SqlClause.ctype] at hpct
            subst hpct
            have hwfpx := hwfpc
            simp only [wfClauseSelf, Bool.and_eq_true] at hwfpx
            obtain ⟨⟨⟨hargsE2, htnQ2⟩, hcolsQ2⟩, hidxB2⟩ := hwfpx
            have hidx : strIndex (insertFragQ
                (SqlClause.mk .insert tn2 cols2 e2 args2 idf2 js2)) " VALUES " =
                some (insertPrefix
                  (SqlClause.mk .insert tn2 cols2 e2 args2 idf2 js2)).data.length := by
              simpa [beq_iff_eq] using hidxB2
            rw [← hparts] at hok
            rw [renderLoop_step_values_insert leading
              (SqlClause.mk .insert tn2 cols2 e2 args2 idf2 js2)
              (SqlClause.mk .values tn cols e args idf js) parts.dropLast
              (insertFragQ (SqlClause.mk .insert tn2 cols2 e2 args2 idf2 js2))
              argPosition usedTotal rest
              (insertPrefix (SqlClause.mk .insert tn2 cols2 e2 args2
                idf2 js2)).data.length rfl rfl hidx] at hok
            have hrec := ih (sizeOf rest) hszr rest leading
              (some (SqlClause.mk .values tn cols e args idf js))
              (parts.dropLast ++ [strTake (insertFragQ (SqlClause.mk .insert
                tn2 cols2 e2 args2 idf2 js2)) (insertPrefix (SqlClause.mk
                .insert tn2 cols2 e2 args2 idf2 js2)).data.length ++
                " VALUES (" ++ strJoin ", " (qMarksList (SqlClause.mk .values
                tn cols e args idf js).args.length) ++ ")"]) parts' _ _ used'
              (Nat.le_refl _) hwfrest hfol
              (by
                intro pc' hpc' hins'
                cases hpc'
                exact absurd hins' (by simp [SqlClause.ctype])) hok
            rw [pendingOf_some_zero _ (by simp [SqlClause.ctype])
              (by simp [SqlClause.ctype]), sumMarks_concat] at hrec
            have htake := strTake_insertFragQ
              (SqlClause.mk .insert tn2 cols2 e2 args2 idf2 js2)
            rw [htake] at hrec
            have hpreM : countQMarks (insertPrefix
                (SqlClause.mk .insert tn2 cols2 e2 args2 idf2 js2)) = 0 :=
              countQMarks_insertPrefix _
                (by simpa [SqlClause.tableName] using htnQ2)
                (by simpa [SqlClause.columnNames] using hcolsQ2)
            have hnewM : countQMarks (insertPrefix (SqlClause.mk .insert tn2
                cols2 e2 args2 idf2 js2) ++ " VALUES (" ++
                strJoin ", " (qMarksList (SqlClause.mk .values tn cols e args
                  idf js).args.length) ++ ")") = args.length := by
              simp only [countQMarks_append, hpreM, countQMarks_qMarksJoin,
                SqlClause.args]
              have l1 : countQMarks " VALUES (" = 0 := by decide
              have l2 : countQMarks ")" = 0 := by decide
              omega
            rw [hnewM] at hrec
            have hfragM : countQMarks (insertFragQ (SqlClause.mk .insert tn2
                cols2 e2 args2 idf2 js2)) = cols2.length := by
              have h := countQMarks_insertFragQ
                (SqlClause.mk .insert tn2 cols2 e2 args2 idf2 js2)
                (by simpa [SqlClause.tableName] using htnQ2)
                (by simpa [SqlClause.columnNames] using hcolsQ2)
              simpa [SqlClause.columnNames] using h
            rw [← hparts, sumMarks_concat, hfragM]
            have hpend2 : pendingOf (some (SqlClause.mk .insert tn2 cols2 e2
                args2 idf2 js2)) = cols2.length := by
              simp [pendingOf, SqlClause.ctype, SqlClause.columnNames]
            rw [hpend2]
            rw [argsList_cons, List.length_append,
              argsOf_ne_join _ (by simp [SqlClause.ctype])]
            simp only [SqlClause.args]
            omega
        · by_cases hpcu : pc.ctype = .update
          · have hM : args.length = pc.columnNames.length := by
              have hf := hfollow
              cases pc with
              | mk t2 tn2 cols2 e2 args2 idf2 js2 =>
                simp only [SqlClause.ctype] at hpcu
                subst hpcu
                simp only [followPrev, SqlClause.ctype, Bool.and_eq_true,
                  beq_iff_eq, SqlClause.args, SqlClause.columnNames] at hf
                simpa [SqlClause.columnNames] using hf.2
            rw [renderLoop_step_values_update leading pc
              (SqlClause.mk .values tn cols e args idf js) parts argPosition
              usedTotal rest hpcu rfl] at hok
            have hrec := ih (sizeOf rest) hszr rest leading
              (some (SqlClause.mk .values tn cols e args idf js)) parts parts'
              argPosition usedTotal used' (Nat.le_refl _) hwfrest hfol
              (by
                intro pc' hpc' hins'
                cases hpc'
                exact absurd hins' (by simp [SqlClause.ctype])) hok
            rw [pendingOf_some_zero _ (by simp [SqlClause.ctype])
              (by simp [SqlClause.ctype])] at hrec
            have hpend2 : pendingOf (some pc) = pc.columnNames.length := by
              cases pc with
              | mk t2 tn2 cols2 e2 args2 idf2 js2 =>
                simp only [SqlClause.ctype] at hpcu
                subst hpcu
                simp [pendingOf, SqlClause.ctype, SqlClause.columnNames]
            rw [hpend2]
            rw [argsList_cons, List.length_append,
              argsOf_ne_join _ (by simp [SqlClause.ctype])]
            simp only [SqlClause.args]
            omega
          · cases pc with
            | mk t2 tn2 cols2 e2 args2 idf2 js2 =>
              simp only [SqlClause.ctype] at hpct hpcu
              simp [renderLoop, SqlClause.ctype, hpct, hpcu] at hok
    | join =>
      simp only [renderLoop] at hok
      rw [if_neg (by simp [SqlClause.ctype]), if_neg (by simp [SqlClause.ctype]),
        if_neg (by simp [SqlClause.ctype]),
        if_pos (show (SqlClause.mk ClauseType.join tn cols e args idf
          js).ctype = ClauseType.join from rfl)] at hok
      split at hok
      · simp at hok
      · rename_i joinSQL used hjok
        have hszc : sizeOf (SqlClause.mk ClauseType.join tn cols e args idf
            js) ≤ n := by
          have h1 : sizeOf (SqlClause.mk ClauseType.join tn cols e args idf js) <
              sizeOf (Clauses.cons (SqlClause.mk ClauseType.join tn cols e args
                idf js) rest) := by
            simp only [Clauses.cons.sizeOf_spec]
            omega
          omega
        have hjm := renderJoinClause_marks n ih leading prev
          (SqlClause.mk ClauseType.join tn cols e args idf js) argPosition
          joinSQL used hszc hwfc rfl hjok
        have hrec := ih (sizeOf rest) hszr rest leading
          (some (SqlClause.mk ClauseType.join tn cols e args idf js))
          (parts ++ [joinSQL]) parts' (argPosition + used) (usedTotal + used)
          used' (Nat.le_refl _) hwfrest hfol
          (by
            intro pc hpc hins
            cases hpc
            exact absurd hins (by simp [SqlClause.ctype])) hok
        rw [pendingOf_some_zero _ (by simp [SqlClause.ctype])
          (by simp [SqlClause.ctype]), sumMarks_concat] at hrec
        rw [pendingOf_zero_of_head_ne_values prev _ rest hfollow
          (by simp [SqlClause.ctype])]
        rw [argsList_cons, List.length_append]
        omega
    | coalesce =>
      have hwfx := hwfc
      simp only [wfClauseSelf, Bool.and_eq_true] at hwfx
      obtain ⟨hargsE, hcolsQ⟩ := hwfx
      have hargsN : args = [] := list_isEmpty_eq_nil _ hargsE
      by_cases hlt : cols.length < 2
      · have hw := write_coalesce_error .sqlite
          (SqlClause.mk .coalesce tn cols e args idf js) argPosition rfl
          (by simpa [SqlClause.columnNames] using hlt)
        simp only [renderLoop] at hok
        rw [if_neg (by simp [SqlClause.ctype]),
          if_neg (by simp [SqlClause.ctype]),
          if_neg (by simp [SqlClause.ctype]),
          if_neg (by simp [SqlClause.ctype]), hw] at hok
        exact absurd hok (by simp)
      · have hlen2 : 2 ≤ (SqlClause.mk .coalesce tn cols e args idf
            js).columnNames.length := by
          simp only [SqlClause.columnNames]
          omega
        rw [renderLoop_coalesce_reaches leading prev parts argPosition
          usedTotal (SqlClause.mk .coalesce tn cols e args idf js) rest rfl
          hlen2] at hok
        by_cases hpt : prevType prev = some ClauseType.select
        · rw [if_neg (by simp [hpt])] at hok
          split at hok
          · simp at hok
          · rename_i sel hlast
            split at hok
            · simp at hok
            · rename_i idx hidx
              have hparts := List.dropLast_append_getLast? _ hlast
              have hupd : updateLast parts (strTake sel idx ++ ", " ++
                  ("COALESCE(" ++ strJoin ", " (SqlClause.mk .coalesce tn cols
                    e args idf js).columnNames ++ ")") ++ strDrop sel idx) =
                  parts.dropLast ++ [strTake sel idx ++ ", " ++
                  ("COALESCE(" ++ strJoin ", " (SqlClause.mk .coalesce tn cols
                    e args idf js).columnNames ++ ")") ++ strDrop sel idx] := by
                simp [updateLast]
              rw [hupd] at hok
              have hrec := ih (sizeOf rest) hszr rest leading
                (some (SqlClause.mk .coalesce tn cols e args idf js))
                (parts.dropLast ++ [strTake sel idx ++ ", " ++
                  ("COALESCE(" ++ strJoin ", " (SqlClause.mk .coalesce tn cols
                    e args idf js).columnNames ++ ")") ++ strDrop sel idx])
                parts' (argPosition + 0) (usedTotal + 0) used' (Nat.le_refl _)
                hwfrest hfol
                (by
                  intro pc' hpc' hins'
                  cases hpc'
                  exact absurd hins' (by simp [SqlClause.ctype])) hok
              rw [pendingOf_some_zero _ (by simp [SqlClause.ctype])
                (by simp [SqlClause.ctype]), sumMarks_concat] at hrec
              have hcoalM : countQMarks ("COALESCE(" ++ strJoin ", "
                  (SqlClause.mk .coalesce tn cols e args idf
                    js).columnNames ++ ")") = 0 := by
                have h2 := countQMarks_strJoin_noQ _ hcolsQ
                simp only [SqlClause.columnNames, countQMarks_append, h2]
                decide
              have hnewM : countQMarks (strTake sel idx ++ ", " ++
                  ("COALESCE(" ++ strJoin ", " (SqlClause.mk .coalesce tn cols
                    e args idf js).columnNames ++ ")") ++ strDrop sel idx) =
                  countQMarks sel := by
                have htd := countQMarks_take_drop sel idx
                have l1 : countQMarks ", " = 0 := by decide
                simp only [countQMarks_append, hcoalM, l1]
                omega
              rw [hnewM] at hrec
              rw [pendingOf_zero_of_head_ne_values prev _ rest hfollow
                (by simp [SqlClause.ctype])]
              rw [argsList_cons, List.length_append,
                argsOf_ne_join _ (by simp [SqlClause.ctype])]
              simp only [SqlClause.args, hargsN, List.length_nil]
              conv_rhs => rw [← hparts]
              rw [sumMarks_concat]
              omega
        · rw [if_pos (by simpa using hpt)] at hok
          exact absurd hok (by simp)

/-- C3 counterexample: an INSERT built from a one-field schema with no VALUES
clause renders one placeholder token while `Args()` is empty, refuting
placeholder/argument parity for arbitrary builder-produced statements. -/
theorem c3_parity_counterexample :
    bareInsertStmt.Write = .ok "INSERT INTO widget (name) VALUES (?);" ∧
    countQMarks "INSERT INTO widget (name) VALUES (?);" = 1 ∧
    bareInsertStmt.argsList.length = 0 ∧
    (1 : Nat) ≠ 0 :=
  ⟨rfl, by decide, rfl, by decide⟩

/-- C3 (amended): on the question-mark dialect, placeholder/argument parity —
the number of `?` placeholder tokens in the rendered SQL equals
`len(Args())`, where `Args()` concatenates the clauses' argument lists in
clause order with a JOIN contributing its nested statement's arguments before
its own — holds for every statement satisfying the argument-matching
discipline `wfStmt`: WHERE/ON templates carry one marker per argument,
LIMIT/OFFSET carry their single argument, identifier-only clauses carry none,
and every INSERT (one placeholder per schema column, no own arguments) or
UPDATE (one per SET column) is immediately followed by the VALUES clause
supplying its arguments.  A bare INSERT without VALUES violates parity, as
the counterexample shows. -/
theorem c3_parity_amended :
    ∀ (stmt : SQLStatement) (sql : String),
      wfStmt stmt = true →
      stmt.Write = .ok sql →
      countQMarks sql = stmt.argsList.length := by
  intro stmt sql hwf hok
  cases stmt with
  | mk cls d =>
    simp only [wfStmt, Bool.and_eq_true] at hwf
    obtain ⟨hdq, hwfc⟩ := hwf
    simp only [SQLStatement.Write, SQLStatement.driver, DefaultDriver] at hok
    simp only [getD_question d hdq] at hok
    simp only [rendererForDriver] at hok
    rw [stmt_argsList_mk]
    cases hrc : renderClauses (SQLStatement.mk cls d) Driver.sqlite
        Renderer.question 1 with
    | error err =>
      rw [hrc] at hok
      simp at hok
    | ok pair =>
      obtain ⟨sql0, used0⟩ := pair
      rw [hrc] at hok
      have hok2 : (if sql0 = "" then (Except.ok "" : Except RenderError String)
          else if needsSemicolon Driver.sqlite = true then
            Except.ok (sql0 ++ ";")
          else Except.ok sql0) = Except.ok sql := hok
      simp only [renderClauses] at hrc
      split at hrc
      · simp at hrc
      · rename_i parts0 used1 hloop
        simp only [Except.ok.injEq, Prod.mk.injEq] at hrc
        obtain ⟨hsql0, -⟩ := hrc
        subst hsql0
        have hpar := renderLoop_parity (sizeOf cls) cls (leadingOf cls) none []
          parts0 1 0 used1 (Nat.le_refl _) hwfc rfl
          (by intro pc hpc _; cases hpc) hloop
        simp only [pendingOf, sumMarks_nil] at hpar
        have hjoinM : countQMarks (strJoin " " parts0) = sumMarks parts0 :=
          countQMarks_strJoin _ _ (by decide)
        by_cases hemp : strJoin " " parts0 = ""
        · rw [if_pos hemp] at hok2
          simp only [Except.ok.injEq] at hok2
          subst hok2
          rw [hemp] at hjoinM
          have h0 : countQMarks "" = 0 := by decide
          rw [h0] at hjoinM
          rw [h0]
          omega
        · rw [if_neg hemp] at hok2
          simp only [needsSemicolon, if_true] at hok2
          simp only [Except.ok.injEq] at hok2
          subst hok2
          rw [countQMarks_append]
          have l1 : countQMarks ";" = 0 := by decide
          omega

/-- Witness for C3 (amended): parity verified end to end on the INSERT/VALUES
statement — two placeholders, two arguments. -/
theorem c3_parity_amended_witness :
    countQMarks "INSERT INTO t (a, b, c) VALUES (?, ?);" =
      parityWitnessStmt.argsList.length :=
  c3_parity_amended parityWitnessStmt "INSERT INTO t (a, b, c) VALUES (?, ?);"
    (by decide) (by rfl)

end SqlCompose
